import Mathlib

/-!
Shallow embedding of the rdflib-neo4j TypeScript store (src/src/utils.ts,
src/src/Neo4jTriple.ts, src/src/query_composers/NodeQueryComposer.ts,
src/src/query_composers/RelationshipQueryComposer.ts, src/src/Neo4jStore.ts)
together with proofs about the claims of the specification.

Strings model JavaScript strings (code points instead of UTF-16 units, which
agrees on the data the claims touch).  JavaScript numbers are modelled with
`Int` for integer results and an exact scaled decimal `m * 10 ^ e` for float
results; `NaN` is a separate constructor.  Thrown exceptions are modelled
with `Except`, and the database driver is an oracle deciding per call
whether the write succeeds.
-/

set_option autoImplicit false

/-- Errors thrown by the embedded code (config/const.ts and inline throws). -/
inductive JsError where
  | shortenStrict (ns : String)
  | cypherMultipleTypesMultiValue
  | dbFailure (msg : String)
  | storeMustBeOpen
  | sessionNotInitialized
  | noRemoval
  | relPropsNotImplemented
deriving Repr, DecidableEq

/-- config/const.ts `HANDLE_VOCAB_URI_STRATEGY`. -/
inductive VocabStrategy where
  | SHORTEN
  | MAP
  | KEEP
  | IGNORE
deriving Repr, DecidableEq

/-- config/const.ts `HANDLE_MULTIVAL_STRATEGY`. -/
inductive MultivalStrategy where
  | OVERWRITE
  | ARRAY
deriving Repr, DecidableEq

/-- Auxiliary for `jsLastIndexOf`: scans the characters left to right keeping
the index of the last match seen (JS `String.prototype.lastIndexOf`). -/
def lastIdxAux (c : Char) : List Char → Nat → Int → Int
  | [], _, acc => acc
  | x :: xs, i, acc => lastIdxAux c xs (i + 1) (if x = c then (i : Int) else acc)

/-- JS `s.lastIndexOf(c)`: index of the last occurrence of `c`, `-1` if none. -/
def jsLastIndexOf (s : String) (c : Char) : Int :=
  lastIdxAux c s.data 0 (-1)

/-- utils.ts `getLocalPart`: substring after the last `#`, else last `/`,
else last `:`; the whole string when none occurs. -/
def getLocalPart (uri : String) : String :=
  let pos := jsLastIndexOf uri '#'
  let pos := if pos < 0 then jsLastIndexOf uri '/' else pos
  let pos := if pos < 0 then jsLastIndexOf uri ':' else pos
  String.mk (uri.data.drop (pos + 1).toNat)

/-- utils.ts `getNamespacePart`: substring up to and including the last `#`,
else last `/`, else last `:`; empty when none occurs. -/
def getNamespacePart (uri : String) : String :=
  let pos := jsLastIndexOf uri '#'
  let pos := if pos < 0 then jsLastIndexOf uri '/' else pos
  let pos := if pos < 0 then jsLastIndexOf uri ':' else pos
  String.mk (uri.data.take (pos + 1).toNat)

/-- utils.ts `handle_vocab_uri_ignore`: keep only the local part. -/
def handle_vocab_uri_ignore (predicate : String) : String :=
  getLocalPart predicate

/-- utils.ts `create_shortened_predicate`: `namespace__localPart`. -/
def create_shortened_predicate (ns : String) (local_part : String) : String :=
  ns ++ "__" ++ local_part

/-- utils.ts `handle_vocab_uri_shorten`: prefix lookup of the namespace part;
throws `ShortenStrictException` when the namespace is not a configured prefix.
`Record<string, string>` is modelled as an association list looked up from
the front. -/
def handle_vocab_uri_shorten (predicate : String)
    (prefixes : List (String × String)) : Except JsError String :=
  let ns := getNamespacePart predicate
  let local_part := getLocalPart predicate
  match prefixes.lookup ns with
  | some p => .ok (create_shortened_predicate p local_part)
  | none => .error (.shortenStrict ns)

/-- utils.ts `handle_vocab_uri_map`: mapping-table lookup, returning the
predicate unchanged on a miss. -/
def handle_vocab_uri_map (mappings : List (String × String))
    (predicate : String) : String :=
  match mappings.lookup predicate with
  | some v => v
  | none => predicate

/-- utils.ts `handle_vocab_uri`: dispatch over the four strategies.  The MAP
branch compares the mapped result with the original URI and falls back to
IGNORE when they are equal (which conflates a lookup miss with a mapping
whose value equals its key). -/
def handle_vocab_uri (mappings : List (String × String)) (predicate : String)
    (prefixes : List (String × String)) (strategy : VocabStrategy) :
    Except JsError String :=
  match strategy with
  | .SHORTEN => handle_vocab_uri_shorten predicate prefixes
  | .MAP =>
      let res := handle_vocab_uri_map mappings predicate
      if res = predicate then .ok (handle_vocab_uri_ignore predicate)
      else .ok res
  | .KEEP => .ok predicate
  | .IGNORE => .ok (handle_vocab_uri_ignore predicate)

example : getLocalPart "http://ex.org/p" = "p" := by decide
example : getNamespacePart "http://ex.org/p" = "http://ex.org/" := by decide
example : getLocalPart "abc" = "abc" := by decide
example : getNamespacePart "abc" = "" := by decide
example :
    handle_vocab_uri [] "http://ex.org/p" [("http://ex.org/", "ex")] .SHORTEN =
      .ok "ex__p" := by rfl

/-- `needle.isPrefixOf` applied at every suffix of the haystack: JS
`String.prototype.includes`. -/
def containsSub (needle : List Char) : List Char → Bool
  | [] => needle.isEmpty
  | c :: t => needle.isPrefixOf (c :: t) || containsSub needle t

/-- JS `s.includes(sub)`. -/
def jsIncludes (s sub : String) : Bool :=
  containsSub sub.data s.data

/-- `10 ^ n` over the integers by plain structural recursion (so that the
kernel evaluates it). -/
def intPow10 : Nat → Int
  | 0 => 1
  | n + 1 => 10 * intPow10 n

/-- An exact finite JS number written as `m * 10 ^ e`.  Values are kept
canonical (`m` not divisible by 10 unless the value is `0 * 10 ^ 0`), so
structural equality coincides with numeric equality.  Every number the
embedded code produces comes from decimal (or radix-integer) notation, so
this representation is exact. -/
structure Dec where
  m : Int
  e : Int
deriving Repr, DecidableEq

/-- Strip factors of 10 from the mantissa into the exponent; the fuel is an
upper bound on the number of strippable factors. -/
def stripTens : Nat → Int → Int → Dec
  | 0, m, e => ⟨m, e⟩
  | fuel + 1, m, e =>
      if m % 10 = 0 && m != 0 then stripTens fuel (m / 10) (e + 1) else ⟨m, e⟩

/-- Canonical scaled decimal for `m * 10 ^ e`. -/
def Dec.norm (m e : Int) : Dec :=
  if m = 0 then ⟨0, 0⟩ else stripTens m.natAbs m e

/-- JS `Number.isInteger` on a finite number. -/
def Dec.isInt (d : Dec) : Bool :=
  0 ≤ d.e

/-- Truncation toward zero (how JS `parseInt` acts on a rendered float). -/
def Dec.trunc (d : Dec) : Int :=
  if 0 ≤ d.e then d.m * intPow10 d.e.toNat else d.m.tdiv (intPow10 (-d.e).toNat)

/-- A JS number that is not NaN: a finite value or a signed infinity. -/
inductive JsNum where
  | finite (d : Dec)
  | inf
  | negInf
deriving Repr, DecidableEq

/-- A JS runtime value as it appears in literal values and parameter rows. -/
inductive JsValue where
  | str (s : String)
  | int (n : Int)
  | num (x : JsNum)
  | nan
  | bool (b : Bool)
  | arr (vs : List JsValue)
deriving Repr

/-- An rdfjs `Literal` as the embedded code uses it: the runtime `value`
(a string lexical form on input, possibly a converted number afterwards)
plus the optional datatype URI. -/
structure JsLiteral where
  value : JsValue
  datatype : Option String
deriving Repr

/-- Decimal digit run to a natural number. -/
def decDigitsVal (ds : List Char) : Nat :=
  ds.foldl (fun a c => a * 10 + (c.toNat - 48)) 0

/-- JS `s.trim()` on the character list. -/
def jsTrimList (cs : List Char) : List Char :=
  ((cs.dropWhile Char.isWhitespace).reverse.dropWhile Char.isWhitespace).reverse

/-- JS `s.trim()`. -/
def jsTrim (s : String) : String :=
  String.mk (jsTrimList s.data)

/-- JS `parseInt(s, 10)`: skip leading whitespace, optional sign, then the
longest run of decimal digits; `none` models NaN. -/
def jsParseInt (s : String) : Option Int :=
  let cs := s.data.dropWhile Char.isWhitespace
  let signAndRest : Bool × List Char :=
    match cs with
    | '-' :: rest => (true, rest)
    | '+' :: rest => (false, rest)
    | _ => (false, cs)
  let ds := signAndRest.2.takeWhile Char.isDigit
  if ds.isEmpty then none
  else some (if signAndRest.1 then -(decDigitsVal ds : Int) else (decDigitsVal ds : Int))

/-- Longest unsigned decimal literal (digits, optional fraction, optional
well-formed exponent) at the head of the characters, with the unconsumed
rest; `none` when there is no digit before or after the point.  The value
`ipart.fpart * 10 ^ exp` is assembled as a scaled decimal. -/
def parseUnsignedDec (cs : List Char) : Option (Dec × List Char) :=
  let ip := cs.takeWhile Char.isDigit
  let cs1 := cs.drop ip.length
  let fracAndRest : List Char × List Char :=
    match cs1 with
    | '.' :: r => (r.takeWhile Char.isDigit, r.drop (r.takeWhile Char.isDigit).length)
    | _ => ([], cs1)
  let fp := fracAndRest.1
  let cs2 := fracAndRest.2
  if ip.isEmpty && fp.isEmpty then none
  else
    let m : Int := (decDigitsVal (ip ++ fp) : Int)
    let e0 : Int := -(fp.length : Int)
    match cs2 with
    | c :: r =>
        if c = 'e' || c = 'E' then
          let esignAndRest : Bool × List Char :=
            match r with
            | '-' :: t => (true, t)
            | '+' :: t => (false, t)
            | _ => (false, r)
          let ed := esignAndRest.2.takeWhile Char.isDigit
          if ed.isEmpty then some (Dec.norm m e0, cs2)
          else
            let ex : Int :=
              if esignAndRest.1 then -(decDigitsVal ed : Int) else (decDigitsVal ed : Int)
            some (Dec.norm m (e0 + ex), esignAndRest.2.drop ed.length)
        else some (Dec.norm m e0, cs2)
    | [] => some (Dec.norm m e0, [])

/-- JS `parseFloat(s)`: leading whitespace, sign, then `Infinity` or the
longest decimal-literal prefix; `none` models NaN. -/
def jsParseFloat (s : String) : Option JsNum :=
  let cs := s.data.dropWhile Char.isWhitespace
  let signAndRest : Bool × List Char :=
    match cs with
    | '-' :: rest => (true, rest)
    | '+' :: rest => (false, rest)
    | _ => (false, cs)
  if ("Infinity".data).isPrefixOf signAndRest.2 then
    some (if signAndRest.1 then .negInf else .inf)
  else
    match parseUnsignedDec signAndRest.2 with
    | some (q, _) => some (.finite (if signAndRest.1 then ⟨-q.m, q.e⟩ else q))
    | none => none

/-- Digit-run parse in a non-decimal base for `Number` (`0x`/`0o`/`0b`). -/
def parseRadixNat (base : Nat) (isD : Char → Bool) (val : Char → Nat)
    (cs : List Char) : Option JsNum :=
  if cs.isEmpty || !(cs.all isD) then none
  else some (.finite (Dec.norm ((cs.foldl (fun a c => a * base + val c) 0 : Nat) : Int) 0))

/-- Hexadecimal digit predicate. -/
def isHexDigitCh (c : Char) : Bool :=
  c.isDigit || ('a' ≤ c && c ≤ 'f') || ('A' ≤ c && c ≤ 'F')

/-- Hexadecimal digit value. -/
def hexDigitVal (c : Char) : Nat :=
  if c.isDigit then c.toNat - 48
  else if 'a' ≤ c && c ≤ 'f' then c.toNat - 87
  else c.toNat - 55

/-- Signed decimal (or `Infinity`) alternative of `Number`, requiring the
whole remaining input to be consumed. -/
def jsNumberDec (cs : List Char) : Option JsNum :=
  let signAndRest : Bool × List Char :=
    match cs with
    | '-' :: rest => (true, rest)
    | '+' :: rest => (false, rest)
    | _ => (false, cs)
  if signAndRest.2 = "Infinity".data then
    some (if signAndRest.1 then .negInf else .inf)
  else
    match parseUnsignedDec signAndRest.2 with
    | some (q, []) => some (.finite (if signAndRest.1 then ⟨-q.m, q.e⟩ else q))
    | _ => none

/-- JS `Number(s)` for a string: trim; empty is `0`; `0x`/`0o`/`0b` radix
literals (sign not allowed); otherwise a full-string signed decimal literal
or `Infinity`; `none` models NaN. -/
def jsNumberParse (s : String) : Option JsNum :=
  let cs := jsTrimList s.data
  if cs.isEmpty then some (.finite ⟨0, 0⟩)
  else
    match cs with
    | '0' :: c :: rest =>
        if c = 'x' || c = 'X' then
          parseRadixNat 16 isHexDigitCh hexDigitVal rest
        else if c = 'b' || c = 'B' then
          parseRadixNat 2 (fun d => d = '0' || d = '1') (fun d => d.toNat - 48) rest
        else if c = 'o' || c = 'O' then
          parseRadixNat 8 (fun d => '0' ≤ d && d ≤ '7') (fun d => d.toNat - 48) rest
        else jsNumberDec cs
    | _ => jsNumberDec cs

/-- `parseInt(String(value), 10)` evaluated per runtime value case.  Arrays
never occur as literal values in the embedded flow. -/
def jsParseIntV : JsValue → JsValue
  | .str s =>
      match jsParseInt s with
      | some n => .int n
      | none => .nan
  | .int n => .int n
  | .num (.finite d) => .int d.trunc
  | .num _ => .nan
  | .nan => .nan
  | .bool _ => .nan
  | .arr _ => .nan

/-- `parseFloat(String(value))` evaluated per runtime value case. -/
def jsParseFloatV : JsValue → JsValue
  | .str s =>
      match jsParseFloat s with
      | some x => .num x
      | none => .nan
  | .int n => .num (.finite (Dec.norm n 0))
  | .num x => .num x
  | .nan => .nan
  | .bool _ => .nan
  | .arr _ => .nan

/-- The test `value === 'true' || value === true || value === 1`. -/
def jsEqTrueOrOne : JsValue → Bool
  | .str s => s == "true"
  | .bool b => b
  | .int n => n == 1
  | .num (.finite d) => d == ⟨1, 0⟩
  | _ => false

/-- Numeric inference on a bare string, Neo4jTriple.ts `parse_triple`
lines 199–215: requires `Number` to yield a finite value, a non-empty
trimmed string and a successful `parseInt`; integers (no `.` and integral
`Number` value) go through `parseInt`, otherwise the `Number` value. -/
def inferFromString (lex : String) : JsValue :=
  match jsNumberParse lex with
  | some (.finite q) =>
      if jsTrim lex != "" && (jsParseInt lex).isSome then
        if q.isInt && !(jsIncludes lex ".") then jsParseIntV (.str lex)
        else .num (.finite q)
      else .str lex
  | _ => .str lex

/-- Neo4jTriple.ts `parse_triple` literal-value conversion (lines 182–215):
the datatype branches assign without returning, so an unmatched datatype
suppresses the numeric inference. -/
def convertLiteralValue (lex : String) (dt : Option String) : JsValue :=
  match dt with
  | some d =>
      if jsIncludes d "integer" || jsIncludes d "int" then jsParseIntV (.str lex)
      else if jsIncludes d "float" || jsIncludes d "double" || jsIncludes d "decimal" then
        jsParseFloatV (.str lex)
      else if jsIncludes d "boolean" then .bool (lex == "true")
      else .str lex
  | none => inferFromString lex

/-- Neo4jTriple.ts `literalToValue` lines 281–289: the string-looks-numeric
fallback (no `parseInt` guard here, unlike `parse_triple`). -/
def literalStringFallback : JsValue → JsValue
  | .str s =>
      match jsNumberParse s with
      | some (.finite q) =>
          if jsTrim s != "" then
            if q.isInt && !(jsIncludes s ".") then jsParseIntV (.str s)
            else .num (.finite q)
          else .str s
      | _ => .str s
  | v => v

/-- Neo4jTriple.ts `literalToValue`: datatype-directed conversion with
early returns; an unmatched (or absent) datatype falls through to the
string fallback. -/
def literalToValue (lit : JsLiteral) : JsValue :=
  match lit.datatype with
  | some d =>
      if jsIncludes d "integer" || jsIncludes d "int" then jsParseIntV lit.value
      else if jsIncludes d "float" || jsIncludes d "double" || jsIncludes d "decimal" then
        jsParseFloatV lit.value
      else if jsIncludes d "boolean" then .bool (jsEqTrueOrOne lit.value)
      else literalStringFallback lit.value
  | none => literalStringFallback lit.value

example : inferFromString "30" = .int 30 := by rfl
example : inferFromString "30.5" = .num (.finite ⟨305, -1⟩) := by rfl
example : inferFromString "hello" = .str "hello" := by rfl
example : inferFromString "" = .str "" := by rfl
example : jsIncludes "http://www.w3.org/2001/XMLSchema#integer" "int" = true := by rfl
example : jsIncludes "http://www.w3.org/2001/XMLSchema#string" "int" = false := by rfl
example :
    convertLiteralValue "42" (some "http://www.w3.org/2001/XMLSchema#integer") =
      .int 42 := by rfl
example :
    convertLiteralValue "true" (some "http://www.w3.org/2001/XMLSchema#boolean") =
      .bool true := by rfl
example : jsNumberParse "3.0" = some (.finite ⟨3, 0⟩) := by rfl
example : jsNumberParse "0x10" = some (.finite ⟨16, 0⟩) := by rfl
example : jsNumberParse "1e3" = some (.finite ⟨1, 3⟩) := by rfl

/-- JS `Set.add` on a list kept in insertion order (value-based identity). -/
def setAdd (l : List String) (x : String) : List String :=
  if l.contains x then l else l ++ [x]

/-- JS `Map.set` / object assignment `o[k] = v`: update the first binding of
the key in place, otherwise append. -/
def mapSet {α : Type} (l : List (String × α)) (k : String) (v : α) :
    List (String × α) :=
  match l with
  | [] => [(k, v)]
  | (k1, v1) :: t => if k1 = k then (k1, v) :: t else (k1, v1) :: mapSet t k v

/-- An rdfjs term as the store consumes it. -/
inductive RdfTerm where
  | namedNode (value : String)
  | blankNode (value : String)
  | literal (value : String) (datatype : Option String)
  | termVar (value : String)
deriving Repr, DecidableEq

/-- An rdfjs quad restricted to the parts the store reads. -/
structure Quad where
  subject : RdfTerm
  predicate : RdfTerm
  object : RdfTerm
deriving Repr, DecidableEq

/-- Neo4jTriple.ts `RDF_TYPE`. -/
def RDF_TYPE : String :=
  "http://www.w3.org/1999/02/22-rdf-syntax-ns#type"

/-- Neo4jTriple.ts / Neo4jStore.ts `termToString`: the term's `value`. -/
def termToString : RdfTerm → String
  | .namedNode v => v
  | .blankNode v => v
  | .literal v _ => v
  | .termVar v => v

/-- Neo4jTriple.ts `Neo4jTriple`: the per-subject accumulator with its
configuration (vocabulary strategy, multival strategy, multivalued
predicate allow-list, reversed prefix table). -/
structure Neo4jTriple where
  uri : String
  labels : List String
  props : List (String × JsLiteral)
  multi_props : List (String × List JsLiteral)
  relationships : List (String × List String)
  handle_vocab_uri_strategy : VocabStrategy
  handle_multival_strategy : MultivalStrategy
  multival_props_names : List String
  prefixes : List (String × String)
deriving Repr

/-- The Neo4jTriple constructor: fresh empty accumulator for a subject. -/
def Neo4jTriple.init (uri : String) (vs : VocabStrategy) (ms : MultivalStrategy)
    (mnames : List String) (prefixes : List (String × String)) : Neo4jTriple :=
  { uri := uri, labels := [], props := [], multi_props := [], relationships := []
    handle_vocab_uri_strategy := vs, handle_multival_strategy := ms
    multival_props_names := mnames, prefixes := prefixes }

/-- Neo4jTriple.ts `add_label`. -/
def Neo4jTriple.add_label (t : Neo4jTriple) (label : String) : Neo4jTriple :=
  { t with labels := setAdd t.labels label }

/-- Neo4jTriple.ts `add_prop`: multivalued properties append to the list
under the name, single-valued properties overwrite. -/
def Neo4jTriple.add_prop (t : Neo4jTriple) (prop_name : String) (value : JsLiteral)
    (multi : Bool) : Neo4jTriple :=
  if multi then
    let cur := (t.multi_props.lookup prop_name).getD []
    { t with multi_props := mapSet t.multi_props prop_name (cur ++ [value]) }
  else
    { t with props := mapSet t.props prop_name value }

/-- Neo4jTriple.ts `add_rel`. -/
def Neo4jTriple.add_rel (t : Neo4jTriple) (rel_type : String) (to_resource : String) :
    Neo4jTriple :=
  let cur := (t.relationships.lookup rel_type).getD []
  { t with relationships := mapSet t.relationships rel_type (setAdd cur to_resource) }

/-- Neo4jTriple.ts `extract_label_key`: the labels joined with `,` in
insertion order, or the sentinel `Resource` when no label was ever added. -/
def Neo4jTriple.extract_label_key (t : Neo4jTriple) : String :=
  if t.labels.length > 0 then String.intercalate "," t.labels else "Resource"

/-- Neo4jTriple.ts `extract_labels`. -/
def Neo4jTriple.extract_labels (t : Neo4jTriple) : List String :=
  t.labels

/-- Neo4jTriple.ts `extract_params`: single-valued properties first, then
the reserved `uri` key, then the multivalued properties, each assignment
overwriting any earlier binding of the same key. -/
def Neo4jTriple.extract_params (t : Neo4jTriple) : List (String × JsValue) :=
  let res := t.props.foldl (fun r kv => mapSet r kv.1 (literalToValue kv.2)) []
  let res := mapSet res "uri" (.str t.uri)
  t.multi_props.foldl (fun r kv => mapSet r kv.1 (.arr (kv.2.map literalToValue))) res

/-- Neo4jTriple.ts `extract_props_names`. -/
def Neo4jTriple.extract_props_names (t : Neo4jTriple) (multi : Bool) : List String :=
  if multi then t.multi_props.map Prod.fst else t.props.map Prod.fst

/-- Neo4jTriple.ts `extract_rels`. -/
def Neo4jTriple.extract_rels (t : Neo4jTriple) : List (String × List String) :=
  t.relationships

/-- Neo4jTriple.ts method `handle_vocab_uri`: resolve a URI with the
accumulator's own prefix table and strategy. -/
def Neo4jTriple.resolve_vocab_uri (t : Neo4jTriple) (mappings : List (String × String))
    (predicate : String) : Except JsError String :=
  handle_vocab_uri mappings predicate t.prefixes t.handle_vocab_uri_strategy

/-- Neo4jTriple.ts `parse_triple`: literal objects become properties
(single- or multivalued per the ARRAY strategy and the allow-list),
`rdf:type` with a named object becomes a label, any other named object
becomes a relationship; non-named predicates and remaining object kinds
are ignored.  A `ShortenStrictException` from URI resolution propagates. -/
def Neo4jTriple.parse_triple (t : Neo4jTriple) (quad : Quad)
    (mappings : List (String × String)) : Except JsError Neo4jTriple :=
  match quad.predicate with
  | .namedNode pv =>
      match quad.object with
      | .literal lex dt =>
          let value := convertLiteralValue lex dt
          match t.resolve_vocab_uri mappings pv with
          | .error e => .error e
          | .ok prop_name =>
              if t.handle_multival_strategy = .ARRAY ∧ t.multival_props_names.contains pv then
                .ok (t.add_prop prop_name ⟨value, dt⟩ true)
              else if t.handle_multival_strategy = .ARRAY ∧ t.multival_props_names = [] then
                .ok (t.add_prop prop_name ⟨value, dt⟩ true)
              else
                .ok (t.add_prop prop_name ⟨value, dt⟩ false)
      | .namedNode ov =>
          if pv = RDF_TYPE then
            match t.resolve_vocab_uri mappings ov with
            | .error e => .error e
            | .ok label => .ok (t.add_label label)
          else
            match t.resolve_vocab_uri mappings pv with
            | .error e => .error e
            | .ok rel_type => .ok (t.add_rel rel_type ov)
      | _ => .ok t
  | _ => .ok t

/-- query_composers/NodeQueryComposer.ts: per-label-set builder state. -/
structure NodeQueryComposer where
  labels : List String
  props : List String
  multi_props : List String
  query_params : List (List (String × JsValue))
  handle_multival_strategy : MultivalStrategy
  multival_props_predicates : List String
deriving Repr

/-- The NodeQueryComposer constructor. -/
def NodeQueryComposer.init (labels : List String) (ms : MultivalStrategy)
    (preds : List String) : NodeQueryComposer :=
  { labels := labels, props := [], multi_props := [], query_params := []
    handle_multival_strategy := ms, multival_props_predicates := preds }

/-- NodeQueryComposer.ts `add_props`. -/
def NodeQueryComposer.add_props (c : NodeQueryComposer) (ps : List String)
    (multi : Bool) : NodeQueryComposer :=
  if !multi then { c with props := ps.foldl setAdd c.props }
  else { c with multi_props := ps.foldl setAdd c.multi_props }

/-- NodeQueryComposer.ts `add_query_param`. -/
def NodeQueryComposer.add_query_param (c : NodeQueryComposer)
    (param : List (String × JsValue)) : NodeQueryComposer :=
  { c with query_params := c.query_params ++ [param] }

/-- NodeQueryComposer.ts `is_redundant`. -/
def NodeQueryComposer.is_redundant (c : NodeQueryComposer) : Bool :=
  c.props.isEmpty && c.labels.isEmpty && c.query_params.isEmpty

/-- NodeQueryComposer.ts `empty_query_params`. -/
def NodeQueryComposer.empty_query_params (c : NodeQueryComposer) : NodeQueryComposer :=
  { c with query_params := [] }

/-- query_composers/RelationshipQueryComposer.ts: per-relationship-type
builder state. -/
structure RelationshipQueryComposer where
  rel_type : String
  props : List String
  query_params : List (String × String)
  createdAtField : String
  updatedAtField : String
deriving Repr

/-- The RelationshipQueryComposer constructor. -/
def RelationshipQueryComposer.init (rel_type createdAt updatedAt : String) :
    RelationshipQueryComposer :=
  { rel_type := rel_type, props := [], query_params := []
    createdAtField := createdAt, updatedAtField := updatedAt }

/-- RelationshipQueryComposer.ts `add_props`: records the names and then
unconditionally throws (relationship properties are unsupported). -/
def RelationshipQueryComposer.add_props (c : RelationshipQueryComposer)
    (ps : List String) : RelationshipQueryComposer × Except JsError Unit :=
  ({ c with props := ps.foldl setAdd c.props }, .error .relPropsNotImplemented)

/-- RelationshipQueryComposer.ts `add_query_param`. -/
def RelationshipQueryComposer.add_query_param (c : RelationshipQueryComposer)
    (from_node to_node : String) : RelationshipQueryComposer :=
  { c with query_params := c.query_params ++ [(from_node, to_node)] }

/-- RelationshipQueryComposer.ts `is_redundant`. -/
def RelationshipQueryComposer.is_redundant (c : RelationshipQueryComposer) : Bool :=
  c.query_params.isEmpty

/-- RelationshipQueryComposer.ts `empty_query_params`. -/
def RelationshipQueryComposer.empty_query_params (c : RelationshipQueryComposer) :
    RelationshipQueryComposer :=
  { c with query_params := [] }

/-- The database driver collaborator: for the n-th query of the run, `none`
means the write succeeds and `some e` that it fails with `e` (the
driver-message translation of utils.ts `handle_neo4j_driver_exception` is
folded into the produced error value). -/
def DbOracle : Type := Nat → Option JsError

/-- Neo4jStore.ts: the store state.  `openFlag` is the private `__open`,
`session` whether a session object exists; `db_calls`, `written_nodes` and
`written_rels` observe the interaction with the external driver. -/
structure Neo4jStore where
  openFlag : Bool
  session : Bool
  batching : Bool
  buffer_max_size : Nat
  total_triples : Nat
  node_buffer_size : Nat
  rel_buffer_size : Nat
  node_buffer : List (String × NodeQueryComposer)
  rel_buffer : List (String × RelationshipQueryComposer)
  current_subject : Option Neo4jTriple
  mappings : List (String × String)
  handle_vocab_uri_strategy : VocabStrategy
  handle_multival_strategy : MultivalStrategy
  multival_props_predicates : List String
  config_prefixes : List (String × String)
  createdAtField : String
  updatedAtField : String
  db_calls : Nat
  written_nodes : List (List (String × JsValue))
  written_rels : List (String × String)
deriving Repr

/-- Neo4jStore.ts `is_open`. -/
def Neo4jStore.is_open (s : Neo4jStore) : Bool :=
  s.openFlag

/-- Constructor followed by `open()`: empty buffers, open flag and session
set (the constraint-check query of `open` is outside the claims and not
counted among the oracle's calls). -/
def Neo4jStore.initOpen (batching : Bool) (batch_size : Nat)
    (mappings : List (String × String)) (vs : VocabStrategy) (ms : MultivalStrategy)
    (mnames : List String) (config_prefixes : List (String × String))
    (createdAt updatedAt : String) : Neo4jStore :=
  { openFlag := true, session := true, batching := batching
    buffer_max_size := batch_size, total_triples := 0
    node_buffer_size := 0, rel_buffer_size := 0
    node_buffer := [], rel_buffer := [], current_subject := none
    mappings := mappings, handle_vocab_uri_strategy := vs
    handle_multival_strategy := ms, multival_props_predicates := mnames
    config_prefixes := config_prefixes
    createdAtField := createdAt, updatedAtField := updatedAt
    db_calls := 0, written_nodes := [], written_rels := [] }

/-- Neo4jStore.ts `__store_current_subject_props`: route the current
subject's row into the composer selected by the label key (creating the
composer on first use), record its property names and bump the node
counter. -/
def Neo4jStore.__store_current_subject_props (s : Neo4jStore) : Neo4jStore :=
  match s.current_subject with
  | none => s
  | some cs =>
      let label_key := cs.extract_label_key
      let composer0 :=
        match s.node_buffer.lookup label_key with
        | some c => c
        | none =>
            NodeQueryComposer.init cs.extract_labels s.handle_multival_strategy
              s.multival_props_predicates
      let composer :=
        ((composer0.add_props (cs.extract_props_names false) false).add_props
            (cs.extract_props_names true) true).add_query_param cs.extract_params
      { s with node_buffer := mapSet s.node_buffer label_key composer
               node_buffer_size := s.node_buffer_size + 1 }

/-- One iteration of the relationship loop of Neo4jStore.ts
`__store_current_subject_rels`: all targets of one relationship type. -/
def storeRelsStep (uri : String) (st : Neo4jStore) (kv : String × List String) :
    Neo4jStore :=
  let composer0 :=
    match st.rel_buffer.lookup kv.1 with
    | some c => c
    | none => RelationshipQueryComposer.init kv.1 st.createdAtField st.updatedAtField
  let composer :=
    kv.2.foldl (fun c to_node => c.add_query_param uri to_node) composer0
  { st with rel_buffer := mapSet st.rel_buffer kv.1 composer
            rel_buffer_size := st.rel_buffer_size + kv.2.length }

/-- Neo4jStore.ts `__store_current_subject_rels`: route every relationship
target of the current subject into the composer of its type, bumping the
relationship counter per target. -/
def Neo4jStore.__store_current_subject_rels (s : Neo4jStore) : Neo4jStore :=
  match s.current_subject with
  | none => s
  | some cs => cs.extract_rels.foldl (storeRelsStep cs.uri) s

/-- Neo4jStore.ts `__store_current_subject`. -/
def Neo4jStore.__store_current_subject (s : Neo4jStore) : Neo4jStore :=
  s.__store_current_subject_props.__store_current_subject_rels

/-- Neo4jStore.ts `__create_current_subject`: fresh accumulator configured
with the reversed prefix table. -/
def Neo4jStore.__create_current_subject (s : Neo4jStore) (subject : String) :
    Neo4jTriple :=
  let reversed := s.config_prefixes.foldl (fun acc kv => mapSet acc kv.2 kv.1) []
  Neo4jTriple.init subject s.handle_vocab_uri_strategy s.handle_multival_strategy
    s.multival_props_predicates reversed

/-- Neo4jStore.ts `__check_current_subject`: on a subject change, push the
previous accumulator into the composer buffers and open a fresh one. -/
def Neo4jStore.__check_current_subject (s : Neo4jStore) (subject : String) :
    Neo4jStore :=
  match s.current_subject with
  | none => { s with current_subject := some (s.__create_current_subject subject) }
  | some cs =>
      if cs.uri ≠ subject then
        let s2 := s.__store_current_subject
        { s2 with current_subject := some (s2.__create_current_subject subject) }
      else s

/-- Neo4jStore.ts `__close_on_error`: empty the query parameters of every
node and relationship composer (nothing else changes). -/
def Neo4jStore.__close_on_error (s : Neo4jStore) : Neo4jStore :=
  { s with node_buffer := s.node_buffer.map (fun kv => (kv.1, kv.2.empty_query_params))
           rel_buffer := s.rel_buffer.map (fun kv => (kv.1, kv.2.empty_query_params)) }

/-- The loop body of Neo4jStore.ts `__flushNodeBuffer`: one driver call per
composer that is not redundant and has buffered rows; a failure aborts the
loop (the counter reset happens only after a complete pass). -/
def flushNodesAux (db : DbOracle) :
    List (String × NodeQueryComposer) → Neo4jStore → Neo4jStore × Except JsError Unit
  | [], s => ({ s with node_buffer_size := 0 }, .ok ())
  | (k, c) :: rest, s =>
      if !c.is_redundant && c.query_params.length > 0 then
        match db s.db_calls with
        | none =>
            flushNodesAux db rest
              { s with db_calls := s.db_calls + 1
                       written_nodes := s.written_nodes ++ c.query_params
                       node_buffer := mapSet s.node_buffer k c.empty_query_params }
        | some e => ({ s with db_calls := s.db_calls + 1 }, .error e)
      else flushNodesAux db rest s

/-- Neo4jStore.ts `__flushNodeBuffer`. -/
def Neo4jStore.__flushNodeBuffer (db : DbOracle) (s : Neo4jStore) :
    Neo4jStore × Except JsError Unit :=
  if !s.session then (s, .error .sessionNotInitialized)
  else flushNodesAux db s.node_buffer s

/-- The loop body of Neo4jStore.ts `__flushRelBuffer`. -/
def flushRelsAux (db : DbOracle) :
    List (String × RelationshipQueryComposer) → Neo4jStore →
      Neo4jStore × Except JsError Unit
  | [], s => ({ s with rel_buffer_size := 0 }, .ok ())
  | (k, c) :: rest, s =>
      if !c.is_redundant then
        match db s.db_calls with
        | none =>
            flushRelsAux db rest
              { s with db_calls := s.db_calls + 1
                       written_rels := s.written_rels ++ c.query_params
                       rel_buffer := mapSet s.rel_buffer k c.empty_query_params }
        | some e => ({ s with db_calls := s.db_calls + 1 }, .error e)
      else flushRelsAux db rest s

/-- Neo4jStore.ts `__flushRelBuffer`. -/
def Neo4jStore.__flushRelBuffer (db : DbOracle) (s : Neo4jStore) :
    Neo4jStore × Except JsError Unit :=
  if !s.session then (s, .error .sessionNotInitialized)
  else flushRelsAux db s.rel_buffer s

/-- Neo4jStore.ts `__flushBuffer`: nodes before relationships; a node
failure skips the relationship flush. -/
def Neo4jStore.__flushBuffer (db : DbOracle) (s : Neo4jStore)
    (only_nodes only_rels : Bool) : Neo4jStore × Except JsError Unit :=
  if !s.is_open then (s, .error .storeMustBeOpen)
  else
    if !only_rels then
      match s.__flushNodeBuffer db with
      | (s1, .ok _) => if !only_nodes then s1.__flushRelBuffer db else (s1, .ok ())
      | (s1, .error e) => (s1, .error e)
    else
      if !only_nodes then s.__flushRelBuffer db else (s, .ok ())

/-- Neo4jStore.ts `commit`: finalize any open accumulator, then flush the
requested side(s) (both when neither flag is set). -/
def Neo4jStore.commit (db : DbOracle) (s : Neo4jStore)
    (commit_nodes commit_rels : Bool) : Neo4jStore × Except JsError Unit :=
  let s :=
    match s.current_subject with
    | some _ => { s.__store_current_subject with current_subject := none }
    | none => s
  if !commit_nodes && !commit_rels then s.__flushBuffer db false false
  else s.__flushBuffer db commit_nodes commit_rels

/-- The try/catch block of Neo4jStore.ts `add` (lines 147–161): batched
threshold checks or an unbatched immediate commit; on failure the buffers
are drained by `__close_on_error` and the error rethrown. -/
def Neo4jStore.addCommitPhase (db : DbOracle) (s : Neo4jStore) :
    Neo4jStore × Except JsError Unit :=
  if s.batching then
    if s.node_buffer_size ≥ s.buffer_max_size then
      match s.commit db true false with
      | (s1, .error e) => (s1.__close_on_error, .error e)
      | (s1, .ok _) =>
          if s1.rel_buffer_size ≥ s1.buffer_max_size then
            match s1.commit db false true with
            | (s2, .error e) => (s2.__close_on_error, .error e)
            | (s2, .ok _) => (s2, .ok ())
          else (s1, .ok ())
    else
      if s.rel_buffer_size ≥ s.buffer_max_size then
        match s.commit db false true with
        | (s1, .error e) => (s1.__close_on_error, .error e)
        | (s1, .ok _) => (s1, .ok ())
      else (s, .ok ())
  else
    match s.commit db false false with
    | (s1, .error e) => (s1.__close_on_error, .error e)
    | (s1, .ok _) => (s1, .ok ())

/-- Neo4jStore.ts `add`: requires an open store, skips non-named subjects,
detects subject boundaries, feeds the accumulator (a resolution failure in
`parse_triple` propagates without draining) and runs the commit phase.
(The `context === this` guard is omitted: no claim passes a context.) -/
def Neo4jStore.add (db : DbOracle) (s : Neo4jStore) (quad : Quad) :
    Neo4jStore × Except JsError Unit :=
  if !s.is_open then (s, .error .storeMustBeOpen)
  else
    match quad.subject with
    | .namedNode subjectValue =>
        let s := s.__check_current_subject subjectValue
        match s.current_subject with
        | some cs =>
            match cs.parse_triple quad s.mappings with
            | .error e => (s, .error e)
            | .ok cs2 =>
                Neo4jStore.addCommitPhase db
                  { s with current_subject := some cs2
                           total_triples := s.total_triples + 1 }
        | none =>
            Neo4jStore.addCommitPhase db
              { s with total_triples := s.total_triples + 1 }
    | _ => (s, .ok ())

/-- Neo4jStore.ts `remove`: unconditionally throws, leaving the state as
it was. -/
def Neo4jStore.remove (s : Neo4jStore) (quad : Quad) (context : Option Unit)
    (txn : Option Unit) : Neo4jStore × Except JsError Unit :=
  (s, .error .noRemoval)

/-- The tail of Neo4jStore.ts `close`: drop the session, clear the open
flag and the triple counter (driver ownership is outside the model). -/
def Neo4jStore.closeFinish (s : Neo4jStore) : Neo4jStore :=
  { s with session := false, openFlag := false, total_triples := 0 }

/-- Neo4jStore.ts `close`: optionally commit nodes then relationships (a
failure propagates and skips the rest), then release the session. -/
def Neo4jStore.close (db : DbOracle) (s : Neo4jStore)
    (commit_pending_transaction : Bool) : Neo4jStore × Except JsError Unit :=
  if commit_pending_transaction then
    match s.commit db true false with
    | (s1, .error e) => (s1, .error e)
    | (s1, .ok _) =>
        match s1.commit db false true with
        | (s2, .error e) => (s2, .error e)
        | (s2, .ok _) => (s2.closeFinish, .ok ())
  else (s.closeFinish, .ok ())

/-- Feed a list of quads through `add`, stopping at the first error (the
caller would see the exception there). -/
def runAdds (db : DbOracle) (s : Neo4jStore) : List Quad → Neo4jStore × Except JsError Unit
  | [] => (s, .ok ())
  | q :: rest =>
      match s.add db q with
      | (s1, .ok _) => runAdds db s1 rest
      | (s1, .error e) => (s1, .error e)

/-- The all-success driver. -/
def dbOk : DbOracle := fun _ => none

/-- The always-failing driver. -/
def dbFail (e : JsError) : DbOracle := fun _ => some e

/-- A small open store used as a concrete input for the boundary-flush run. -/
def wBoundaryStore : Neo4jStore :=
  ⟨true, true, true, 10, 0, 0, 0, [], [], none, [], .IGNORE, .OVERWRITE, [],
   [], "createdAt", "updatedAt", 0, [], []⟩

/-- A concrete quad about the first subject. -/
def wQuadA : Quad :=
  ⟨.namedNode "http://a/x", .namedNode "http://p/q", .namedNode "http://o/1"⟩

/-- A concrete quad about the second subject. -/
def wQuadB : Quad :=
  ⟨.namedNode "http://b/y", .namedNode "http://p/q", .namedNode "http://o/2"⟩

/-! ### Association-list lemmas -/

theorem lookup_mapSet_self {α : Type} (l : List (String × α)) (k : String) (v : α) :
    (mapSet l k v).lookup k = some v := by
  induction l with
  | nil => simp [mapSet, List.lookup]
  | cons p t ih =>
      obtain ⟨k1, v1⟩ := p
      by_cases h : k1 = k
      · subst h
        simp [mapSet, List.lookup]
      · have hb : (k == k1) = false := by
          rw [beq_eq_false_iff_ne]
          exact fun he => h he.symm
        simp [mapSet, h, List.lookup, hb, ih]

theorem lookup_mapSet_ne {α : Type} (l : List (String × α)) (k k2 : String) (v : α)
    (h : k2 ≠ k) : (mapSet l k v).lookup k2 = l.lookup k2 := by
  have hb : (k2 == k) = false := beq_eq_false_iff_ne.mpr h
  induction l with
  | nil => simp [mapSet, List.lookup, hb]
  | cons p t ih =>
      obtain ⟨k1, v1⟩ := p
      by_cases h1 : k1 = k
      · subst h1
        simp [mapSet, List.lookup, hb]
      · by_cases h2 : k2 = k1
        · subst h2
          simp [mapSet, h1, List.lookup]
        · have hb2 : (k2 == k1) = false := beq_eq_false_iff_ne.mpr h2
          simp [mapSet, h1, List.lookup, hb2, ih]

theorem setAdd_idem (l : List String) (x : String) :
    setAdd (setAdd l x) x = setAdd l x := by
  by_cases h : x ∈ l
  · simp [setAdd, h]
  · simp [setAdd, h]

/-! ### C2: vocabulary-URI strategy resolution -/

/-- C2 (counterexample): the claim says MAP returns `M[u]` whenever `u` is a
key of `M`; but for the identity entry `M = {u: u}` the code's hit test
(`mapped = original`) fails and the IGNORE local part `p` is returned
instead of `M[u] = http://ex.org/p`. -/
theorem map_identity_mapping_counterexample :
    ([("http://ex.org/p", "http://ex.org/p")].lookup "http://ex.org/p"
        = some "http://ex.org/p") ∧
    handle_vocab_uri [("http://ex.org/p", "http://ex.org/p")] "http://ex.org/p"
        [] .MAP = .ok "p" ∧
    ("p" : String) ≠ "http://ex.org/p" := by
  refine ⟨by rfl, by rfl, ?_⟩
  decide

/-- C2 (amended): IGNORE returns the local part, KEEP the URI unchanged,
SHORTEN `prefix__localPart` on a prefix-table hit; MAP returns the mapped
value when it differs from the URI and the IGNORE local part when the URI
is absent from the table or mapped to itself; and the five concrete
examples of the claim. -/
theorem vocab_strategy_resolution (M P : List (String × String)) (u : String) :
    handle_vocab_uri M u P .IGNORE = .ok (getLocalPart u) ∧
    handle_vocab_uri M u P .KEEP = .ok u ∧
    (∀ p, P.lookup (getNamespacePart u) = some p →
      handle_vocab_uri M u P .SHORTEN = .ok (p ++ "__" ++ getLocalPart u)) ∧
    (∀ w, M.lookup u = some w → w ≠ u → handle_vocab_uri M u P .MAP = .ok w) ∧
    (M.lookup u = none → handle_vocab_uri M u P .MAP = .ok (getLocalPart u)) ∧
    (M.lookup u = some u → handle_vocab_uri M u P .MAP = .ok (getLocalPart u)) ∧
    handle_vocab_uri [] "http://ex.org/p" [("http://ex.org/", "ex")] .SHORTEN
      = .ok "ex__p" ∧
    handle_vocab_uri [] "http://ex.org/p" [("http://ex.org/", "ex")] .IGNORE
      = .ok "p" ∧
    handle_vocab_uri [] "http://ex.org/p" [("http://ex.org/", "ex")] .KEEP
      = .ok "http://ex.org/p" ∧
    handle_vocab_uri [("http://ex.org/p", "Q")] "http://ex.org/p"
      [("http://ex.org/", "ex")] .MAP = .ok "Q" := by
  refine ⟨rfl, rfl, ?_, ?_, ?_, ?_, by rfl, by rfl, by rfl, by rfl⟩
  · intro p hp
    simp [handle_vocab_uri, handle_vocab_uri_shorten, hp, create_shortened_predicate]
  · intro w hw hne
    simp [handle_vocab_uri, handle_vocab_uri_map, hw, hne]
  · intro hn
    simp [handle_vocab_uri, handle_vocab_uri_map, hn, handle_vocab_uri_ignore]
  · intro hs
    simp [handle_vocab_uri, handle_vocab_uri_map, hs, handle_vocab_uri_ignore]

/-- Witness for `vocab_strategy_resolution` at concrete inputs. -/
theorem vocab_strategy_resolution_witness :
    handle_vocab_uri [] "http://ex.org/p" [("http://ex.org/", "ex")] .SHORTEN
        = .ok ("ex" ++ "__" ++ getLocalPart "http://ex.org/p") ∧
    handle_vocab_uri [("http://ex.org/p", "Q")] "http://ex.org/p" [] .MAP = .ok "Q" ∧
    handle_vocab_uri [] "http://ex.org/q" [] .MAP = .ok (getLocalPart "http://ex.org/q") ∧
    handle_vocab_uri [("u", "u")] "u" [] .MAP = .ok (getLocalPart "u") := by
  have h1 := vocab_strategy_resolution [] [("http://ex.org/", "ex")] "http://ex.org/p"
  have h2 := vocab_strategy_resolution [("http://ex.org/p", "Q")] [] "http://ex.org/p"
  have h3 := vocab_strategy_resolution [] [] "http://ex.org/q"
  have h4 := vocab_strategy_resolution [("u", "u")] [] "u"
  exact ⟨h1.2.2.1 "ex" (by rfl), h2.2.2.2.1 "Q" (by rfl) (by decide),
    h3.2.2.2.2.1 (by rfl), h4.2.2.2.2.2.1 (by rfl)⟩

/-! ### C4: SHORTEN is strict -/

/-- C4: resolving under SHORTEN fails with a ShortenStrict error exactly
when the URI's namespace is absent from the prefix table; on a miss no
value is produced and no other strategy is consulted (the error names the
namespace), and on a hit the shortened name is returned without error. -/
theorem shorten_strategy_strict (M P : List (String × String)) (u : String) :
    (P.lookup (getNamespacePart u) = none ↔
      handle_vocab_uri M u P .SHORTEN
        = .error (.shortenStrict (getNamespacePart u))) ∧
    (∀ p, P.lookup (getNamespacePart u) = some p →
      handle_vocab_uri M u P .SHORTEN
        = .ok (create_shortened_predicate p (getLocalPart u))) ∧
    (∀ e, handle_vocab_uri M u P .SHORTEN = .error e →
      e = .shortenStrict (getNamespacePart u) ∧
        P.lookup (getNamespacePart u) = none) := by
  refine ⟨⟨fun hn => ?_, fun he => ?_⟩, fun p hp => ?_, fun e he => ?_⟩
  · simp [handle_vocab_uri, handle_vocab_uri_shorten, hn]
  · cases hl : P.lookup (getNamespacePart u) with
    | none => rfl
    | some p =>
        simp [handle_vocab_uri, handle_vocab_uri_shorten, hl] at he
  · simp [handle_vocab_uri, handle_vocab_uri_shorten, hp]
  · cases hl : P.lookup (getNamespacePart u) with
    | none =>
        simp [handle_vocab_uri, handle_vocab_uri_shorten, hl] at he
        exact ⟨he.symm, rfl⟩
    | some p =>
        simp [handle_vocab_uri, handle_vocab_uri_shorten, hl] at he

/-- Witness for `shorten_strategy_strict` at concrete inputs: a miss on an
empty prefix table and a hit on `{http://ex.org/: ex}`. -/
theorem shorten_strategy_strict_witness :
    handle_vocab_uri [] "http://ex.org/p" [] .SHORTEN
        = .error (.shortenStrict (getNamespacePart "http://ex.org/p")) ∧
    handle_vocab_uri [] "http://ex.org/p" [("http://ex.org/", "ex")] .SHORTEN
        = .ok (create_shortened_predicate "ex" (getLocalPart "http://ex.org/p")) := by
  have h1 := shorten_strategy_strict [] [] "http://ex.org/p"
  have h2 := shorten_strategy_strict [] [("http://ex.org/", "ex")] "http://ex.org/p"
  exact ⟨h1.1.1 (by rfl), h2.2.1 "ex" (by rfl)⟩

/-! ### C5: the label grouping key -/

/-- C5 (counterexample): the claim says the key is the sorted label set, so
equal label sets give equal keys regardless of insertion order; but the
code joins the labels in insertion order: `{B, A}` and `{A, B}` hold the
same set yet produce the different keys `B,A` and `A,B` (and `B,A` is not
sorted). -/
theorem label_key_order_counterexample :
    (((Neo4jTriple.init "u" .IGNORE .OVERWRITE [] []).add_label "B").add_label
        "A").labels = ["B", "A"] ∧
    (((Neo4jTriple.init "u" .IGNORE .OVERWRITE [] []).add_label "A").add_label
        "B").labels = ["A", "B"] ∧
    (((Neo4jTriple.init "u" .IGNORE .OVERWRITE [] []).add_label "B").add_label
        "A").extract_label_key = "B,A" ∧
    (((Neo4jTriple.init "u" .IGNORE .OVERWRITE [] []).add_label "A").add_label
        "B").extract_label_key = "A,B" ∧
    ("B,A" : String) ≠ "A,B" := by
  refine ⟨by rfl, by rfl, by rfl, by rfl, ?_⟩
  decide

/-- C5 (amended): `extract_label_key` joins the accumulated labels in
insertion order when at least one label was added and returns the sentinel
`Resource` when none was; adding the same label twice leaves the label set
unchanged, so the key depends only on the sequence of distinct labels in
first-insertion order (not on the set alone). -/
theorem label_key_insertion_order (t : Neo4jTriple) (l : String) :
    (t.labels = [] → t.extract_label_key = "Resource") ∧
    (t.labels ≠ [] → t.extract_label_key = String.intercalate "," t.labels) ∧
    (t.add_label l).add_label l = t.add_label l := by
  refine ⟨fun h => ?_, fun h => ?_, ?_⟩
  · simp [Neo4jTriple.extract_label_key, h]
  · have : t.labels.length > 0 := List.length_pos.mpr h
    simp [Neo4jTriple.extract_label_key, this]
  · simp [Neo4jTriple.add_label, setAdd_idem]

/-- Witness for `label_key_insertion_order` at a concrete accumulator. -/
theorem label_key_insertion_order_witness :
    ((Neo4jTriple.init "u" .IGNORE .OVERWRITE [] []).extract_label_key
        = "Resource") ∧
    ((Neo4jTriple.init "u" .IGNORE .OVERWRITE [] []).add_label "A").extract_label_key
        = String.intercalate ","
            ((Neo4jTriple.init "u" .IGNORE .OVERWRITE [] []).add_label "A").labels := by
  have h1 := label_key_insertion_order (Neo4jTriple.init "u" .IGNORE .OVERWRITE [] []) "A"
  have h2 := label_key_insertion_order
    ((Neo4jTriple.init "u" .IGNORE .OVERWRITE [] []).add_label "A") "A"
  exact ⟨h1.1 (by rfl), h2.2.1 (by simp [Neo4jTriple.init, Neo4jTriple.add_label, setAdd])⟩

/-! ### C8: unconditionally failing operations -/

/-- C8: `remove` throws for every quad, context and transaction argument and
leaves the store state unchanged, and `RelationshipQueryComposer.add_props`
throws on every call for every set of property names; neither ever silently
succeeds. -/
theorem unsupported_ops_always_fail :
    (∀ (s : Neo4jStore) (quad : Quad) (context txn : Option Unit),
      s.remove quad context txn = (s, .error .noRemoval)) ∧
    (∀ (c : RelationshipQueryComposer) (ps : List String),
      (c.add_props ps).2 = .error .relPropsNotImplemented) := by
  exact ⟨fun s quad context txn => rfl, fun c ps => rfl⟩

/-! ### C3: multivalued classification at parse time -/

/-- C3: a literal-object triple is stored multivalued exactly when the
strategy is ARRAY and the predicate is in the allow-list or the allow-list
is empty; otherwise (including OVERWRITE for every predicate) it is stored
single-valued, where the last write for a property name wins and
multivalued writes append instead. -/
theorem parse_triple_multival_classification :
    (∀ (t : Neo4jTriple) (sub : RdfTerm) (p lex : String) (dt : Option String)
        (m : List (String × String)) (name : String),
      t.resolve_vocab_uri m p = .ok name →
      (t.handle_multival_strategy = .ARRAY ∧
          (p ∈ t.multival_props_names ∨ t.multival_props_names = []) →
        t.parse_triple ⟨sub, .namedNode p, .literal lex dt⟩ m =
          .ok (t.add_prop name ⟨convertLiteralValue lex dt, dt⟩ true)) ∧
      (¬(t.handle_multival_strategy = .ARRAY ∧
          (p ∈ t.multival_props_names ∨ t.multival_props_names = [])) →
        t.parse_triple ⟨sub, .namedNode p, .literal lex dt⟩ m =
          .ok (t.add_prop name ⟨convertLiteralValue lex dt, dt⟩ false))) ∧
    (∀ (t : Neo4jTriple) (n : String) (v w : JsLiteral),
      ((t.add_prop n v false).add_prop n w false).props.lookup n = some w) ∧
    (∀ (t : Neo4jTriple) (n : String) (v : JsLiteral),
      (t.add_prop n v true).multi_props.lookup n
          = some ((t.multi_props.lookup n).getD [] ++ [v]) ∧
      (t.add_prop n v true).props = t.props ∧
      (t.add_prop n v false).multi_props = t.multi_props) := by
  refine ⟨fun t sub p lex dt m name hres => ⟨?_, ?_⟩, fun t n v w => ?_, fun t n v => ?_⟩
  · rintro ⟨hA, hmem | hempty⟩
    · simp [Neo4jTriple.parse_triple, hres, hA, hmem]
    · simp [Neo4jTriple.parse_triple, hres, hA, hempty]
  · intro hn
    by_cases hA : t.handle_multival_strategy = .ARRAY
    · have h1 : ¬ p ∈ t.multival_props_names := fun hm => hn ⟨hA, Or.inl hm⟩
      have h2 : ¬ t.multival_props_names = [] := fun he => hn ⟨hA, Or.inr he⟩
      simp [Neo4jTriple.parse_triple, hres, hA, h1, h2]
    · simp [Neo4jTriple.parse_triple, hres, hA]
  · simp [Neo4jTriple.add_prop, lookup_mapSet_self]
  · refine ⟨?_, ?_, ?_⟩
    · simp [Neo4jTriple.add_prop, lookup_mapSet_self]
    · simp [Neo4jTriple.add_prop]
    · simp [Neo4jTriple.add_prop]

/-- Witness for `parse_triple_multival_classification`: with ARRAY and the
predicate listed, the literal is appended multivalued; with OVERWRITE it is
stored single-valued. -/
theorem parse_triple_multival_classification_witness :
    (Neo4jTriple.init "u" .IGNORE .ARRAY ["http://ex.org/p"] []).parse_triple
        ⟨.namedNode "u", .namedNode "http://ex.org/p", .literal "x" none⟩ []
      = .ok ((Neo4jTriple.init "u" .IGNORE .ARRAY ["http://ex.org/p"] []).add_prop
          "p" ⟨convertLiteralValue "x" none, none⟩ true) ∧
    (Neo4jTriple.init "u" .IGNORE .OVERWRITE [] []).parse_triple
        ⟨.namedNode "u", .namedNode "http://ex.org/p", .literal "x" none⟩ []
      = .ok ((Neo4jTriple.init "u" .IGNORE .OVERWRITE [] []).add_prop
          "p" ⟨convertLiteralValue "x" none, none⟩ false) := by
  have h1 := (parse_triple_multival_classification.1
    (Neo4jTriple.init "u" .IGNORE .ARRAY ["http://ex.org/p"] [])
    (.namedNode "u") "http://ex.org/p" "x" none [] "p" (by rfl)).1
  have h2 := (parse_triple_multival_classification.1
    (Neo4jTriple.init "u" .IGNORE .OVERWRITE [] [])
    (.namedNode "u") "http://ex.org/p" "x" none [] "p" (by rfl)).2
  refine ⟨h1 ⟨rfl, Or.inl (by simp [Neo4jTriple.init])⟩, h2 ?_⟩
  rintro ⟨hA, _⟩
  exact absurd hA (by simp [Neo4jTriple.init])

/-! ### C9: the reserved uri key of extract_params -/

theorem lookup_foldl_mapSet_notmem {α β : Type} (g : String × β → α)
    (l : List (String × β)) (init : List (String × α)) (k : String)
    (h : ∀ kv ∈ l, kv.1 ≠ k) :
    (l.foldl (fun r kv => mapSet r kv.1 (g kv)) init).lookup k = init.lookup k := by
  induction l generalizing init with
  | nil => rfl
  | cons kv t ih =>
      simp only [List.foldl_cons]
      rw [ih _ (fun x hx => h x (List.mem_cons_of_mem _ hx))]
      exact lookup_mapSet_ne _ _ _ _ (Ne.symm (h kv (List.mem_cons_self _ _)))

theorem lookup_foldl_mapSet_mem {α β : Type} (g : String × β → α) :
    ∀ (l : List (String × β)) (k : String) (v : β),
      (l.map Prod.fst).Nodup → l.lookup k = some v →
      ∀ init : List (String × α),
        (l.foldl (fun r kv => mapSet r kv.1 (g kv)) init).lookup k = some (g (k, v)) := by
  intro l
  induction l with
  | nil =>
      intro k v _ hv
      simp [List.lookup] at hv
  | cons kv t ih =>
      intro k v hnd hv init
      obtain ⟨k1, v1⟩ := kv
      simp only [List.map_cons, List.nodup_cons] at hnd
      by_cases hk : k1 = k
      · subst hk
        have hv1 : v1 = v := by
          simpa [List.lookup] using hv
        subst hv1
        simp only [List.foldl_cons]
        rw [lookup_foldl_mapSet_notmem]
        · exact lookup_mapSet_self _ _ _
        · intro x hx he
          exact hnd.1 (he ▸ List.mem_map_of_mem Prod.fst hx)
      · have hb : (k == k1) = false := beq_eq_false_iff_ne.mpr (fun he => hk he.symm)
        simp only [List.lookup, hb] at hv
        simp only [List.foldl_cons]
        exact ih k v hnd.2 hv _

/-- C9: in the `extract_params` row the `uri` key is written after the
single-valued properties and before the multivalued ones: when no
multivalued property is named `uri` the row's `uri` entry is the subject's
URI string (even when a single-valued property of that name exists, it is
overwritten); a multivalued property named `uri` overwrites the subject's
URI with its converted value array. -/
theorem extract_params_uri_key :
    (∀ t : Neo4jTriple, (∀ kv ∈ t.multi_props, kv.1 ≠ "uri") →
      t.extract_params.lookup "uri" = some (.str t.uri)) ∧
    (∀ (t : Neo4jTriple) (vs : List JsLiteral),
      (t.multi_props.map Prod.fst).Nodup → t.multi_props.lookup "uri" = some vs →
      t.extract_params.lookup "uri" = some (.arr (vs.map literalToValue))) := by
  constructor
  · intro t h
    simp only [Neo4jTriple.extract_params]
    rw [lookup_foldl_mapSet_notmem _ _ _ _ h]
    exact lookup_mapSet_self _ _ _
  · intro t vs hnd hv
    simp only [Neo4jTriple.extract_params]
    exact lookup_foldl_mapSet_mem _ t.multi_props "uri" vs hnd hv _

/-- Witness for `extract_params_uri_key`: a subject whose single-valued
property is literally named `uri` still reports the subject URI, and a
multivalued property named `uri` overwrites it with its value array. -/
theorem extract_params_uri_key_witness :
    ((Neo4jTriple.init "http://a" .IGNORE .OVERWRITE [] []).add_prop "uri"
        ⟨.str "fake", none⟩ false).extract_params.lookup "uri"
      = some (.str "http://a") ∧
    ((Neo4jTriple.init "http://a" .IGNORE .ARRAY [] []).add_prop "uri"
        ⟨.str "fake", none⟩ true).extract_params.lookup "uri"
      = some (.arr ([⟨.str "fake", none⟩].map literalToValue)) := by
  constructor
  · exact extract_params_uri_key.1 _ (by simp [Neo4jTriple.init, Neo4jTriple.add_prop, mapSet])
  · exact extract_params_uri_key.2 _ [⟨.str "fake", none⟩]
      (by simp [Neo4jTriple.init, Neo4jTriple.add_prop, mapSet])
      (by simp [Neo4jTriple.init, Neo4jTriple.add_prop, mapSet, List.lookup])

/-! ### C6: literal-to-value conversion -/

/-- Test harness for one literal triple: feed a fresh accumulator (IGNORE /
OVERWRITE configuration) one literal-object quad through `parse_triple` and
read the resolved property back from the `extract_params` row. -/
def singleLiteralRow (subject pred lex : String) (dt : Option String) :
    Option (Option JsValue) :=
  match (Neo4jTriple.init subject .IGNORE .OVERWRITE [] []).parse_triple
      ⟨.namedNode subject, .namedNode pred, .literal lex dt⟩ [] with
  | .ok t2 => some (t2.extract_params.lookup (getLocalPart pred))
  | .error _ => none

theorem parse_triple_literal_overwrite (t : Neo4jTriple) (sub : RdfTerm)
    (p lex : String) (dt : Option String) (m : List (String × String)) (name : String)
    (hres : t.resolve_vocab_uri m p = .ok name)
    (hms : t.handle_multival_strategy = .OVERWRITE) :
    t.parse_triple ⟨sub, .namedNode p, .literal lex dt⟩ m =
      .ok (t.add_prop name ⟨convertLiteralValue lex dt, dt⟩ false) := by
  simp [Neo4jTriple.parse_triple, hres, hms]

theorem singleLiteralRow_eq (sub p lex : String) (dt : Option String)
    (hp : getLocalPart p ≠ "uri") :
    singleLiteralRow sub p lex dt =
      some (some (literalToValue ⟨convertLiteralValue lex dt, dt⟩)) := by
  have hres : (Neo4jTriple.init sub .IGNORE .OVERWRITE [] []).resolve_vocab_uri [] p
      = .ok (getLocalPart p) := rfl
  rw [singleLiteralRow, parse_triple_literal_overwrite _ _ _ _ _ _ _ hres rfl]
  simp [Neo4jTriple.add_prop, Neo4jTriple.init, Neo4jTriple.extract_params, mapSet,
    List.lookup, hp]

/-- C6: in the extracted parameter row, a literal with an integer datatype
becomes the parsed integer; a boolean-datatype literal `true` becomes the
boolean true; an untyped literal whose string passes the numeric inference
becomes a number — the `parseInt` integer when it contains no `.` and the
`Number` value otherwise — and an untyped non-numeric string stays a
string. -/
theorem literal_value_conversion :
    (∀ (sub p lex d : String) (n : Int),
      (jsIncludes d "integer" || jsIncludes d "int") = true →
      jsParseInt lex = some n → getLocalPart p ≠ "uri" →
      singleLiteralRow sub p lex (some d) = some (some (.int n))) ∧
    (∀ sub p d : String,
      jsIncludes d "integer" = false → jsIncludes d "int" = false →
      jsIncludes d "float" = false → jsIncludes d "double" = false →
      jsIncludes d "decimal" = false → jsIncludes d "boolean" = true →
      getLocalPart p ≠ "uri" →
      singleLiteralRow sub p "true" (some d) = some (some (.bool true))) ∧
    (∀ (sub p lex : String) (q : Dec) (n : Int),
      jsNumberParse lex = some (.finite q) → q.isInt = true →
      jsIncludes lex "." = false → jsTrim lex ≠ "" → jsParseInt lex = some n →
      getLocalPart p ≠ "uri" →
      singleLiteralRow sub p lex none = some (some (.int n))) ∧
    (∀ (sub p lex : String) (q : Dec) (n0 : Int),
      jsNumberParse lex = some (.finite q) → jsTrim lex ≠ "" →
      jsParseInt lex = some n0 →
      (q.isInt && !(jsIncludes lex ".")) = false →
      getLocalPart p ≠ "uri" →
      singleLiteralRow sub p lex none = some (some (.num (.finite q)))) ∧
    (∀ sub p lex : String,
      jsNumberParse lex = none → getLocalPart p ≠ "uri" →
      singleLiteralRow sub p lex none = some (some (.str lex))) := by
  refine ⟨?_, ?_, ?_, ?_, ?_⟩
  · intro sub p lex d n hd hn hp
    rw [singleLiteralRow_eq sub p lex (some d) hp]
    simp [convertLiteralValue, literalToValue, jsParseIntV, hd, hn]
  · intro sub p d h1 h2 h3 h4 h5 h6 hp
    rw [singleLiteralRow_eq sub p "true" (some d) hp]
    simp [convertLiteralValue, literalToValue, jsEqTrueOrOne, h1, h2, h3, h4, h5, h6]
  · intro sub p lex q n hq hqi hdot htrim hn hp
    rw [singleLiteralRow_eq sub p lex none hp]
    simp [convertLiteralValue, literalToValue, literalStringFallback, inferFromString,
      jsParseIntV, hq, hqi, hdot, htrim, hn]
  · intro sub p lex q n0 hq htrim hn hflag hp
    rw [singleLiteralRow_eq sub p lex none hp]
    rcases Bool.and_eq_false_iff.mp hflag with hqi | hdot
    · simp [convertLiteralValue, literalToValue, literalStringFallback, inferFromString,
        hq, hqi, htrim, hn]
    · have hdot2 : jsIncludes lex "." = true := by
        cases hx : jsIncludes lex "."
        · rw [hx] at hdot
          simp at hdot
        · rfl
      simp [convertLiteralValue, literalToValue, literalStringFallback, inferFromString,
        hq, hdot2, htrim, hn]
  · intro sub p lex hq hp
    rw [singleLiteralRow_eq sub p lex none hp]
    simp [convertLiteralValue, literalToValue, literalStringFallback, inferFromString, hq]

/-- Witness for `literal_value_conversion` at concrete literals: `42` with
the XSD integer datatype, `true` with the XSD boolean datatype, untyped
`30`, untyped `30.5` and untyped `hello`. -/
theorem literal_value_conversion_witness :
    singleLiteralRow "s" "http://ex.org/age" "42"
        (some "http://www.w3.org/2001/XMLSchema#integer") = some (some (.int 42)) ∧
    singleLiteralRow "s" "http://ex.org/flag" "true"
        (some "http://www.w3.org/2001/XMLSchema#boolean") = some (some (.bool true)) ∧
    singleLiteralRow "s" "http://ex.org/age" "30" none = some (some (.int 30)) ∧
    singleLiteralRow "s" "http://ex.org/score" "30.5" none
        = some (some (.num (.finite ⟨305, -1⟩))) ∧
    singleLiteralRow "s" "http://ex.org/name" "hello" none
        = some (some (.str "hello")) := by
  refine ⟨?_, ?_, ?_, ?_, ?_⟩
  · exact literal_value_conversion.1 "s" "http://ex.org/age" "42"
      "http://www.w3.org/2001/XMLSchema#integer" 42 (by rfl) (by rfl) (by decide)
  · exact literal_value_conversion.2.1 "s" "http://ex.org/flag"
      "http://www.w3.org/2001/XMLSchema#boolean" (by rfl) (by rfl) (by rfl) (by rfl)
      (by rfl) (by rfl) (by decide)
  · exact literal_value_conversion.2.2.1 "s" "http://ex.org/age" "30" ⟨3, 1⟩ 30
      (by rfl) (by rfl) (by rfl) (by decide) (by rfl) (by decide)
  · exact literal_value_conversion.2.2.2.1 "s" "http://ex.org/score" "30.5" ⟨305, -1⟩ 30
      (by rfl) (by decide) (by rfl) (by rfl) (by decide)
  · exact literal_value_conversion.2.2.2.2 "s" "http://ex.org/name" "hello"
      (by rfl) (by decide)

/-! ### Store-level support lemmas -/

theorem mem_mapSet_self {α : Type} (l : List (String × α)) (k : String) (v : α) :
    (k, v) ∈ mapSet l k v := by
  induction l with
  | nil => simp [mapSet]
  | cons p t ih =>
      by_cases h : p.1 = k
      · obtain ⟨k1, v1⟩ := p
        simp only at h
        subst h
        simp [mapSet]
      · simp [mapSet, h, ih]

theorem add_query_param_ne_nil (c : NodeQueryComposer) (row : List (String × JsValue)) :
    (c.add_query_param row).query_params ≠ [] := by
  simp [NodeQueryComposer.add_query_param]

theorem add_props_query_params (c : NodeQueryComposer) (ps : List String) (b : Bool) :
    (c.add_props ps b).query_params = c.query_params := by
  cases b <;> simp [NodeQueryComposer.add_props]

theorem handle_vocab_uri_ok (m P : List (String × String)) (u : String)
    (st : VocabStrategy) (h : st ≠ .SHORTEN) :
    ∃ r, handle_vocab_uri m u P st = .ok r := by
  cases st with
  | SHORTEN => exact absurd rfl h
  | MAP =>
      by_cases hc : handle_vocab_uri_map m u = u
      · exact ⟨handle_vocab_uri_ignore u, by simp [handle_vocab_uri, hc]⟩
      · exact ⟨handle_vocab_uri_map m u, by simp [handle_vocab_uri, hc]⟩
  | KEEP => exact ⟨u, rfl⟩
  | IGNORE => exact ⟨handle_vocab_uri_ignore u, rfl⟩

theorem add_prop_frame (t : Neo4jTriple) (n : String) (v : JsLiteral) (b : Bool) :
    (t.add_prop n v b).uri = t.uri ∧
    (t.add_prop n v b).handle_vocab_uri_strategy = t.handle_vocab_uri_strategy ∧
    (t.add_prop n v b).handle_multival_strategy = t.handle_multival_strategy ∧
    (t.add_prop n v b).multival_props_names = t.multival_props_names ∧
    (t.add_prop n v b).prefixes = t.prefixes := by
  cases b <;> simp [Neo4jTriple.add_prop]

theorem add_label_frame (t : Neo4jTriple) (l : String) :
    (t.add_label l).uri = t.uri ∧
    (t.add_label l).handle_vocab_uri_strategy = t.handle_vocab_uri_strategy ∧
    (t.add_label l).handle_multival_strategy = t.handle_multival_strategy ∧
    (t.add_label l).multival_props_names = t.multival_props_names ∧
    (t.add_label l).prefixes = t.prefixes := by
  simp [Neo4jTriple.add_label]

theorem add_rel_frame (t : Neo4jTriple) (rt tv : String) :
    (t.add_rel rt tv).uri = t.uri ∧
    (t.add_rel rt tv).handle_vocab_uri_strategy = t.handle_vocab_uri_strategy ∧
    (t.add_rel rt tv).handle_multival_strategy = t.handle_multival_strategy ∧
    (t.add_rel rt tv).multival_props_names = t.multival_props_names ∧
    (t.add_rel rt tv).prefixes = t.prefixes := by
  simp [Neo4jTriple.add_rel]

/-- For a non-SHORTEN accumulator, `parse_triple` never throws and leaves
the subject URI and the configuration fields unchanged. -/
theorem parse_triple_ok (t : Neo4jTriple) (q : Quad) (m : List (String × String))
    (h : t.handle_vocab_uri_strategy ≠ .SHORTEN) :
    ∃ t2, t.parse_triple q m = .ok t2 ∧ t2.uri = t.uri ∧
      t2.handle_vocab_uri_strategy = t.handle_vocab_uri_strategy ∧
      t2.handle_multival_strategy = t.handle_multival_strategy ∧
      t2.multival_props_names = t.multival_props_names ∧
      t2.prefixes = t.prefixes := by
  obtain ⟨sub, pred, obj⟩ := q
  cases pred with
  | namedNode pv =>
      cases obj with
      | literal lex dt =>
          obtain ⟨r, hr⟩ := handle_vocab_uri_ok m t.prefixes pv
            t.handle_vocab_uri_strategy h
          have hres : t.resolve_vocab_uri m pv = .ok r := hr
          by_cases hA : t.handle_multival_strategy = .ARRAY
          · by_cases hmem : pv ∈ t.multival_props_names
            · refine ⟨t.add_prop r ⟨convertLiteralValue lex dt, dt⟩ true,
                by simp [Neo4jTriple.parse_triple, hres, hA, hmem], ?_, ?_, ?_, ?_, ?_⟩
              · exact (add_prop_frame _ _ _ _).1
              · exact (add_prop_frame _ _ _ _).2.1
              · exact (add_prop_frame _ _ _ _).2.2.1
              · exact (add_prop_frame _ _ _ _).2.2.2.1
              · exact (add_prop_frame _ _ _ _).2.2.2.2
            · by_cases hemp : t.multival_props_names = []
              · refine ⟨t.add_prop r ⟨convertLiteralValue lex dt, dt⟩ true,
                  by simp [Neo4jTriple.parse_triple, hres, hA, hmem, hemp],
                  ?_, ?_, ?_, ?_, ?_⟩
                · exact (add_prop_frame _ _ _ _).1
                · exact (add_prop_frame _ _ _ _).2.1
                · exact (add_prop_frame _ _ _ _).2.2.1
                · exact (add_prop_frame _ _ _ _).2.2.2.1
                · exact (add_prop_frame _ _ _ _).2.2.2.2
              · refine ⟨t.add_prop r ⟨convertLiteralValue lex dt, dt⟩ false,
                  by simp [Neo4jTriple.parse_triple, hres, hA, hmem, hemp],
                  ?_, ?_, ?_, ?_, ?_⟩
                · exact (add_prop_frame _ _ _ _).1
                · exact (add_prop_frame _ _ _ _).2.1
                · exact (add_prop_frame _ _ _ _).2.2.1
                · exact (add_prop_frame _ _ _ _).2.2.2.1
                · exact (add_prop_frame _ _ _ _).2.2.2.2
          · refine ⟨t.add_prop r ⟨convertLiteralValue lex dt, dt⟩ false,
              by simp [Neo4jTriple.parse_triple, hres, hA], ?_, ?_, ?_, ?_, ?_⟩
            · exact (add_prop_frame _ _ _ _).1
            · exact (add_prop_frame _ _ _ _).2.1
            · exact (add_prop_frame _ _ _ _).2.2.1
            · exact (add_prop_frame _ _ _ _).2.2.2.1
            · exact (add_prop_frame _ _ _ _).2.2.2.2
      | namedNode ov =>
          by_cases hrt : pv = RDF_TYPE
          · obtain ⟨r, hr⟩ := handle_vocab_uri_ok m t.prefixes ov
              t.handle_vocab_uri_strategy h
            have hres : t.resolve_vocab_uri m ov = .ok r := hr
            refine ⟨t.add_label r, by simp [Neo4jTriple.parse_triple, hrt, hres],
              ?_, ?_, ?_, ?_, ?_⟩
            · exact (add_label_frame _ _).1
            · exact (add_label_frame _ _).2.1
            · exact (add_label_frame _ _).2.2.1
            · exact (add_label_frame _ _).2.2.2.1
            · exact (add_label_frame _ _).2.2.2.2
          · obtain ⟨r, hr⟩ := handle_vocab_uri_ok m t.prefixes pv
              t.handle_vocab_uri_strategy h
            have hres : t.resolve_vocab_uri m pv = .ok r := hr
            refine ⟨t.add_rel r ov, by simp [Neo4jTriple.parse_triple, hrt, hres],
              ?_, ?_, ?_, ?_, ?_⟩
            · exact (add_rel_frame _ _ _).1
            · exact (add_rel_frame _ _ _).2.1
            · exact (add_rel_frame _ _ _).2.2.1
            · exact (add_rel_frame _ _ _).2.2.2.1
            · exact (add_rel_frame _ _ _).2.2.2.2
      | blankNode bv =>
          exact ⟨t, by simp [Neo4jTriple.parse_triple], rfl, rfl, rfl, rfl, rfl⟩
      | termVar vv =>
          exact ⟨t, by simp [Neo4jTriple.parse_triple], rfl, rfl, rfl, rfl, rfl⟩
  | blankNode pv => exact ⟨t, rfl, rfl, rfl, rfl, rfl, rfl⟩
  | literal pv dt => exact ⟨t, rfl, rfl, rfl, rfl, rfl, rfl⟩
  | termVar pv => exact ⟨t, rfl, rfl, rfl, rfl, rfl, rfl⟩

/-- The relationship-storing fold only rewrites the relationship buffer and
its counter. -/
theorem storeRels_foldl_frame (uri : String) :
    ∀ (rs : List (String × List String)) (st : Neo4jStore),
      ∃ rb rbs, rs.foldl (storeRelsStep uri) st
        = { st with rel_buffer := rb, rel_buffer_size := rbs } := by
  intro rs
  induction rs with
  | nil => exact fun st => ⟨st.rel_buffer, st.rel_buffer_size, rfl⟩
  | cons kv rest ih =>
      intro st
      obtain ⟨rb, rbs, heq⟩ := ih (storeRelsStep uri st kv)
      exact ⟨rb, rbs, by rw [List.foldl_cons]; exact heq⟩

theorem store_rels_frame (s : Neo4jStore) :
    ∃ rb rbs, s.__store_current_subject_rels
      = { s with rel_buffer := rb, rel_buffer_size := rbs } := by
  cases hc : s.current_subject with
  | none =>
      have hid : s.__store_current_subject_rels = s := by
        simp [Neo4jStore.__store_current_subject_rels, hc]
      exact ⟨s.rel_buffer, s.rel_buffer_size, by rw [hid, ← hc]⟩
  | some cs =>
      obtain ⟨rb, rbs, heq⟩ := storeRels_foldl_frame cs.uri cs.extract_rels s
      exact ⟨rb, rbs, by simp [Neo4jStore.__store_current_subject_rels, hc, heq]⟩

/-- With an always-failing driver, the node-flush loop fails at its first
composer holding buffered rows: one driver call, nothing written, no state
change beyond the call counter. -/
theorem flushNodesAux_fail (e : JsError) :
    ∀ (entries : List (String × NodeQueryComposer)) (s : Neo4jStore),
      (∃ kv ∈ entries, kv.2.query_params ≠ []) →
      flushNodesAux (dbFail e) entries s
        = ({ s with db_calls := s.db_calls + 1 }, .error e) := by
  intro entries
  induction entries with
  | nil =>
      intro s h
      simp at h
  | cons kv rest ih =>
      intro s h
      obtain ⟨k, c⟩ := kv
      by_cases hg : (!c.is_redundant && decide (c.query_params.length > 0)) = true
      · simp [flushNodesAux, hg, dbFail]
      · have hgf : (!c.is_redundant && decide (c.query_params.length > 0)) = false := by
          cases hx : (!c.is_redundant && decide (c.query_params.length > 0))
          · rfl
          · exact absurd hx hg
        have hcp : c.query_params = [] := by
          cases hq : c.query_params with
          | nil => rfl
          | cons a b =>
              exfalso
              apply hg
              simp [NodeQueryComposer.is_redundant, hq]
        have hrest : ∃ kv ∈ rest, kv.2.query_params ≠ [] := by
          rcases h with ⟨kv2, hmem, hne⟩
          rcases List.mem_cons.mp hmem with he | hm
          · exact absurd (by rw [he]; exact hcp) hne
          · exact ⟨kv2, hm, hne⟩
        rw [flushNodesAux, if_neg (by simp [hgf])]
        exact ih s hrest

theorem store_props_some (s : Neo4jStore) (cs : Neo4jTriple)
    (h : s.current_subject = some cs) :
    ∃ comp : NodeQueryComposer,
      s.__store_current_subject_props
        = { s with node_buffer := mapSet s.node_buffer cs.extract_label_key comp
                   node_buffer_size := s.node_buffer_size + 1 } ∧
      comp.query_params ≠ [] := by
  obtain ⟨o, se, b, bm, tt, nbs, rbsz, nb, rbuf, csub, mp, vstrat, mstrat, mnames,
    cpref, caf, uaf, dc, wn, wr⟩ := s
  simp only at h
  subst h
  exact ⟨_, rfl, add_query_param_ne_nil _ _⟩

theorem store_subject_some (s : Neo4jStore) (cs : Neo4jTriple)
    (h : s.current_subject = some cs) :
    ∃ (comp : NodeQueryComposer) (rb : List (String × RelationshipQueryComposer))
        (rbs : Nat),
      s.__store_current_subject
        = { s with node_buffer := mapSet s.node_buffer cs.extract_label_key comp
                   node_buffer_size := s.node_buffer_size + 1
                   rel_buffer := rb, rel_buffer_size := rbs } ∧
      comp.query_params ≠ [] := by
  obtain ⟨comp, hP, hne⟩ := store_props_some s cs h
  obtain ⟨rb, rbs, hR⟩ := store_rels_frame s.__store_current_subject_props
  refine ⟨comp, rb, rbs, ?_, hne⟩
  rw [Neo4jStore.__store_current_subject, hR, hP]

theorem addCommitPhase_unbatched (db : DbOracle) (s2 : Neo4jStore)
    (hb : s2.batching = false) :
    Neo4jStore.addCommitPhase db s2 =
      (match Neo4jStore.commit db s2 false false with
       | (s1, .error e) => (s1.__close_on_error, .error e)
       | (s1, .ok _) => (s1, .ok ())) := by
  obtain ⟨o, se, b, bm, tt, nbs, rbsz, nb, rbuf, csub, mp, vstrat, mstrat, mnames,
    cpref, caf, uaf, dc, wn, wr⟩ := s2
  simp only at hb
  subst hb
  rfl

theorem commit_ff_some (db : DbOracle) (s2 : Neo4jStore) (cs2 : Neo4jTriple)
    (h : s2.current_subject = some cs2) :
    Neo4jStore.commit db s2 false false
      = Neo4jStore.__flushBuffer db
          { s2.__store_current_subject with current_subject := none } false false := by
  obtain ⟨o, se, b, bm, tt, nbs, rbsz, nb, rbuf, csub, mp, vstrat, mstrat, mnames,
    cpref, caf, uaf, dc, wn, wr⟩ := s2
  simp only at h
  subst h
  rfl

theorem flushBuffer_ff_nodes_fail (db : DbOracle) (st sf : Neo4jStore) (e : JsError)
    (ho : st.openFlag = true) (hs : st.session = true)
    (hfail : flushNodesAux db st.node_buffer st = (sf, .error e)) :
    st.__flushBuffer db false false = (sf, .error e) := by
  obtain ⟨o, se, b, bm, tt, nbs, rbsz, nb, rbuf, csub, mp, vstrat, mstrat, mnames,
    cpref, caf, uaf, dc, wn, wr⟩ := st
  simp only at ho hs hfail
  subst ho
  subst hs
  simp [Neo4jStore.__flushBuffer, Neo4jStore.is_open,
    Neo4jStore.__flushNodeBuffer, hfail]

/-- A nodes-only flush propagates a node-side failure unchanged. -/
theorem flushBuffer_tf_nodes_fail (db : DbOracle) (st sf : Neo4jStore) (e : JsError)
    (ho : st.openFlag = true) (hs : st.session = true)
    (hfail : flushNodesAux db st.node_buffer st = (sf, .error e)) :
    st.__flushBuffer db true false = (sf, .error e) := by
  obtain ⟨o, se, b, bm, tt, nbs, rbsz, nb, rbuf, csub, mp, vstrat, mstrat, mnames,
    cpref, caf, uaf, dc, wn, wr⟩ := st
  simp only at ho hs hfail
  subst ho
  subst hs
  simp [Neo4jStore.__flushBuffer, Neo4jStore.is_open,
    Neo4jStore.__flushNodeBuffer, hfail]

/-- With an always-failing driver, `add` of a named-subject quad on an open,
unbatched store (no accumulator open, non-SHORTEN strategy) reaches the
per-triple flush, which fails on its single driver call; the error
propagates out of `add` after `__close_on_error` drained the buffers, with
nothing written and the node counter already bumped for the stored row. -/
theorem add_const_fail_spec (s : Neo4jStore) (quad : Quad) (u : String) (e : JsError)
    (hopen : s.openFlag = true) (hsession : s.session = true)
    (hbatch : s.batching = false) (hsub : quad.subject = .namedNode u)
    (hstrat : s.handle_vocab_uri_strategy ≠ .SHORTEN)
    (hcur : s.current_subject = none) :
    ∃ sf : Neo4jStore,
      s.add (dbFail e) quad = (sf.__close_on_error, .error e) ∧
      sf.openFlag = true ∧ sf.session = true ∧
      sf.written_nodes = s.written_nodes ∧
      sf.written_rels = s.written_rels ∧
      sf.db_calls = s.db_calls + 1 ∧
      sf.node_buffer_size = s.node_buffer_size + 1 := by
  obtain ⟨o, se, b, bm, tt, nbs, rbsz, nb, rbuf, csub, mp, vstrat, mstrat, mnames,
    cpref, caf, uaf, dc, wn, wr⟩ := s
  simp only at hopen hsession hbatch hstrat hcur
  subst hopen
  subst hsession
  subst hbatch
  subst hcur
  have hcstrat : ((⟨true, true, false, bm, tt, nbs, rbsz, nb, rbuf, none, mp, vstrat,
      mstrat, mnames, cpref, caf, uaf, dc, wn, wr⟩ :
        Neo4jStore).__create_current_subject u).handle_vocab_uri_strategy
      ≠ .SHORTEN := hstrat
  obtain ⟨cs2, hps, hpuri, hp1, hp2, hp3, hp4⟩ :=
    parse_triple_ok _ quad mp hcstrat
  have hadd : Neo4jStore.add (dbFail e)
      ⟨true, true, false, bm, tt, nbs, rbsz, nb, rbuf, none, mp, vstrat, mstrat,
       mnames, cpref, caf, uaf, dc, wn, wr⟩ quad
      = Neo4jStore.addCommitPhase (dbFail e)
          ⟨true, true, false, bm, tt + 1, nbs, rbsz, nb, rbuf, some cs2, mp, vstrat,
           mstrat, mnames, cpref, caf, uaf, dc, wn, wr⟩ := by
    simp [Neo4jStore.add, Neo4jStore.is_open, hsub,
      Neo4jStore.__check_current_subject, hps]
  obtain ⟨comp, rb2, rbs2, hstore, hne⟩ :=
    store_subject_some
      ⟨true, true, false, bm, tt + 1, nbs, rbsz, nb, rbuf, some cs2, mp, vstrat,
       mstrat, mnames, cpref, caf, uaf, dc, wn, wr⟩ cs2 rfl
  have hSL : (⟨true, true, false, bm, tt + 1, nbs, rbsz, nb, rbuf, some cs2, mp,
      vstrat, mstrat, mnames, cpref, caf, uaf, dc, wn, wr⟩ :
        Neo4jStore).__store_current_subject
      = ⟨true, true, false, bm, tt + 1, nbs + 1, rbs2,
         mapSet nb cs2.extract_label_key comp, rb2, some cs2, mp, vstrat, mstrat,
         mnames, cpref, caf, uaf, dc, wn, wr⟩ := hstore
  have hcommit : Neo4jStore.commit (dbFail e)
        ⟨true, true, false, bm, tt + 1, nbs, rbsz, nb, rbuf, some cs2, mp, vstrat,
         mstrat, mnames, cpref, caf, uaf, dc, wn, wr⟩ false false
      = Neo4jStore.__flushBuffer (dbFail e)
          ⟨true, true, false, bm, tt + 1, nbs + 1, rbs2,
           mapSet nb cs2.extract_label_key comp, rb2, none, mp, vstrat, mstrat,
           mnames, cpref, caf, uaf, dc, wn, wr⟩ false false := by
    rw [commit_ff_some (dbFail e) _ cs2 rfl, hSL]
  have hmem : ∃ kv ∈ mapSet nb cs2.extract_label_key comp, kv.2.query_params ≠ [] :=
    ⟨(cs2.extract_label_key, comp), mem_mapSet_self _ _ _, hne⟩
  have hf := flushNodesAux_fail e (mapSet nb cs2.extract_label_key comp)
      ⟨true, true, false, bm, tt + 1, nbs + 1, rbs2,
       mapSet nb cs2.extract_label_key comp, rb2, none, mp, vstrat, mstrat,
       mnames, cpref, caf, uaf, dc, wn, wr⟩ hmem
  have hfb : Neo4jStore.__flushBuffer (dbFail e)
        ⟨true, true, false, bm, tt + 1, nbs + 1, rbs2,
         mapSet nb cs2.extract_label_key comp, rb2, none, mp, vstrat, mstrat,
         mnames, cpref, caf, uaf, dc, wn, wr⟩ false false
      = (⟨true, true, false, bm, tt + 1, nbs + 1, rbs2,
          mapSet nb cs2.extract_label_key comp, rb2, none, mp, vstrat, mstrat,
          mnames, cpref, caf, uaf, dc + 1, wn, wr⟩, .error e) :=
    flushBuffer_ff_nodes_fail (dbFail e) _ _ e rfl rfl hf
  refine ⟨⟨true, true, false, bm, tt + 1, nbs + 1, rbs2,
      mapSet nb cs2.extract_label_key comp, rb2, none, mp, vstrat, mstrat,
      mnames, cpref, caf, uaf, dc + 1, wn, wr⟩, ?_, rfl, rfl, rfl, rfl, rfl, rfl⟩
  rw [hadd, addCommitPhase_unbatched (dbFail e) _ rfl, hcommit, hfb]

theorem close_on_error_node_empty (s : Neo4jStore) :
    ∀ kv ∈ s.__close_on_error.node_buffer, kv.2.query_params = [] := by
  intro kv hkv
  rcases List.mem_map.mp hkv with ⟨x, hx, hxe⟩
  rw [← hxe]
  rfl

theorem close_on_error_rel_empty (s : Neo4jStore) :
    ∀ kv ∈ s.__close_on_error.rel_buffer, kv.2.query_params = [] := by
  intro kv hkv
  rcases List.mem_map.mp hkv with ⟨x, hx, hxe⟩
  rw [← hxe]
  rfl


/-! ### C10: error handler drains both sides, counters untouched -/

/-- C10: `__close_on_error` empties the query parameters of every node and
relationship composer — both sides, including the one whose write did not
fail — while `node_buffer_size` and `rel_buffer_size` (and all other
fields) are untouched; consequently, after a failed unbatched `add` the
node counter equals its previous value plus one while every composer holds
zero rows, so the counter exceeds the number of buffered rows until a
successful flush resets it. -/
theorem close_on_error_frame :
    (∀ s : Neo4jStore,
      s.__close_on_error.node_buffer_size = s.node_buffer_size ∧
      s.__close_on_error.rel_buffer_size = s.rel_buffer_size ∧
      s.__close_on_error.total_triples = s.total_triples ∧
      s.__close_on_error.openFlag = s.openFlag ∧
      s.__close_on_error.written_nodes = s.written_nodes ∧
      s.__close_on_error.written_rels = s.written_rels ∧
      (∀ kv ∈ s.__close_on_error.node_buffer, kv.2.query_params = []) ∧
      (∀ kv ∈ s.__close_on_error.rel_buffer, kv.2.query_params = []) ∧
      s.__close_on_error.node_buffer.map Prod.fst = s.node_buffer.map Prod.fst ∧
      s.__close_on_error.rel_buffer.map Prod.fst = s.rel_buffer.map Prod.fst) ∧
    (∀ (s : Neo4jStore) (quad : Quad) (u : String) (e : JsError),
      s.openFlag = true → s.session = true → s.batching = false →
      quad.subject = .namedNode u → s.handle_vocab_uri_strategy ≠ .SHORTEN →
      s.current_subject = none →
      (s.add (dbFail e) quad).1.node_buffer_size = s.node_buffer_size + 1 ∧
      0 < (s.add (dbFail e) quad).1.node_buffer_size ∧
      (∀ kv ∈ (s.add (dbFail e) quad).1.node_buffer, kv.2.query_params = [])) := by
  constructor
  · intro s
    refine ⟨rfl, rfl, rfl, rfl, rfl, rfl, close_on_error_node_empty s,
      close_on_error_rel_empty s, ?_, ?_⟩
    · simp [Neo4jStore.__close_on_error]
    · simp [Neo4jStore.__close_on_error]
  · intro s quad u e hopen hsession hbatch hsub hstrat hcur
    obtain ⟨sf, heq, ho, hs, hwn, hwr, hdb, hnb⟩ :=
      add_const_fail_spec s quad u e hopen hsession hbatch hsub hstrat hcur
    rw [heq]
    refine ⟨hnb, ?_, close_on_error_node_empty sf⟩
    show 0 < sf.node_buffer_size
    rw [hnb]
    exact Nat.succ_pos _

/-- Witness for `close_on_error_frame` at a concrete failed add. -/
theorem close_on_error_frame_witness :
    ((Neo4jStore.initOpen false 1000 [] .IGNORE .OVERWRITE [] [] "_createdAt"
        "_updatedAt").add (dbFail (.dbFailure "boom"))
        ⟨.namedNode "http://a", .namedNode "http://p", .literal "1" none⟩).1.node_buffer_size
      = 1 ∧
    (∀ kv ∈ ((Neo4jStore.initOpen false 1000 [] .IGNORE .OVERWRITE [] [] "_createdAt"
        "_updatedAt").add (dbFail (.dbFailure "boom"))
        ⟨.namedNode "http://a", .namedNode "http://p", .literal "1" none⟩).1.node_buffer,
      kv.2.query_params = []) := by
  have h := close_on_error_frame.2
    (Neo4jStore.initOpen false 1000 [] .IGNORE .OVERWRITE [] [] "_createdAt"
      "_updatedAt")
    ⟨.namedNode "http://a", .namedNode "http://p", .literal "1" none⟩
    "http://a" (.dbFailure "boom") rfl rfl rfl rfl (by decide) rfl
  exact ⟨h.1, h.2.2⟩

/-! ### C1 support: accumulation folds and row counting -/

/-- One `add`-step of accumulation as the store performs it between
commits: parse the quad into the accumulator (an impossible resolution
failure leaves it unchanged). -/
def parseStepFn (m : List (String × String)) (t : Neo4jTriple) (q : Quad) :
    Neo4jTriple :=
  match t.parse_triple q m with
  | .ok t2 => t2
  | .error _ => t

/-- The accumulator the store builds for one subject from a contiguous run
of quads: a fresh accumulator fed through `parse_triple`. -/
def Neo4jStore.accumulateSubject (s : Neo4jStore) (subject : String)
    (qs : List Quad) : Neo4jTriple :=
  qs.foldl (parseStepFn s.mappings) (s.__create_current_subject subject)

/-- Total number of relationship rows an accumulator will emit. -/
def relRowsCount (t : Neo4jTriple) : Nat :=
  (t.relationships.map (fun kv => kv.2.length)).sum

theorem setAdd_length_le (l : List String) (x : String) :
    (setAdd l x).length ≤ l.length + 1 := by
  by_cases h : x ∈ l
  · simp [setAdd, h]
  · simp [setAdd, h]

theorem sumLens_mapSet_le (k : String) (v : List String) :
    ∀ l : List (String × List String),
      v.length ≤ ((l.lookup k).getD []).length + 1 →
      ((mapSet l k v).map (fun kv => kv.2.length)).sum
        ≤ ((l.map (fun kv => kv.2.length)).sum) + 1 := by
  intro l
  induction l with
  | nil =>
      intro h
      simpa [mapSet, List.lookup] using h
  | cons p t ih =>
      obtain ⟨k1, v1⟩ := p
      intro h
      by_cases hk : k1 = k
      · subst hk
        simp only [List.lookup, beq_self_eq_true, Option.getD_some] at h
        simp [mapSet]
        omega
      · have hb : (k == k1) = false := beq_eq_false_iff_ne.mpr (fun he => hk he.symm)
        simp only [List.lookup, hb] at h
        simp only [mapSet, if_neg hk, List.map_cons, List.sum_cons]
        have := ih h
        omega

theorem relRows_add_prop (t : Neo4jTriple) (n : String) (v : JsLiteral) (b : Bool) :
    relRowsCount (t.add_prop n v b) = relRowsCount t := by
  cases b <;> simp [Neo4jTriple.add_prop, relRowsCount]

theorem relRows_add_label (t : Neo4jTriple) (l : String) :
    relRowsCount (t.add_label l) = relRowsCount t := by
  simp [Neo4jTriple.add_label, relRowsCount]

theorem relRows_add_rel (t : Neo4jTriple) (rt ov : String) :
    relRowsCount (t.add_rel rt ov) ≤ relRowsCount t + 1 := by
  unfold Neo4jTriple.add_rel relRowsCount
  simp only
  apply sumLens_mapSet_le
  exact setAdd_length_le _ _

/-- Any successful `parse_triple` result preserves the subject URI and the
configuration and adds at most one relationship row. -/
theorem parse_triple_shape (t : Neo4jTriple) (q : Quad) (m : List (String × String))
    (t2 : Neo4jTriple) (hps : t.parse_triple q m = .ok t2) :
    t2.uri = t.uri ∧
    t2.handle_vocab_uri_strategy = t.handle_vocab_uri_strategy ∧
    relRowsCount t2 ≤ relRowsCount t + 1 := by
  obtain ⟨sub, pred, obj⟩ := q
  cases pred with
  | namedNode pv =>
      cases obj with
      | literal lex dt =>
          simp only [Neo4jTriple.parse_triple] at hps
          cases hr : t.resolve_vocab_uri m pv with
          | error e => simp [hr] at hps
          | ok r =>
              simp only [hr] at hps
              by_cases h1 : t.handle_multival_strategy = .ARRAY ∧
                  t.multival_props_names.contains pv = true
              · rw [if_pos h1] at hps
                cases hps
                exact ⟨(add_prop_frame _ _ _ _).1, (add_prop_frame _ _ _ _).2.1,
                  le_of_eq_of_le (relRows_add_prop _ _ _ _) (Nat.le_succ _)⟩
              · rw [if_neg h1] at hps
                by_cases h2 : t.handle_multival_strategy = .ARRAY ∧
                    t.multival_props_names = []
                · rw [if_pos h2] at hps
                  cases hps
                  exact ⟨(add_prop_frame _ _ _ _).1, (add_prop_frame _ _ _ _).2.1,
                    le_of_eq_of_le (relRows_add_prop _ _ _ _) (Nat.le_succ _)⟩
                · rw [if_neg h2] at hps
                  cases hps
                  exact ⟨(add_prop_frame _ _ _ _).1, (add_prop_frame _ _ _ _).2.1,
                    le_of_eq_of_le (relRows_add_prop _ _ _ _) (Nat.le_succ _)⟩
      | namedNode ov =>
          simp only [Neo4jTriple.parse_triple] at hps
          by_cases hrt : pv = RDF_TYPE
          · rw [if_pos hrt] at hps
            cases hr : t.resolve_vocab_uri m ov with
            | error e => simp [hr] at hps
            | ok r =>
                simp only [hr] at hps
                cases hps
                exact ⟨(add_label_frame _ _).1, (add_label_frame _ _).2.1,
                  le_of_eq_of_le (relRows_add_label _ _) (Nat.le_succ _)⟩
          · rw [if_neg hrt] at hps
            cases hr : t.resolve_vocab_uri m pv with
            | error e => simp [hr] at hps
            | ok r =>
                simp only [hr] at hps
                cases hps
                exact ⟨(add_rel_frame _ _ _).1, (add_rel_frame _ _ _).2.1,
                  relRows_add_rel _ _ _⟩
      | blankNode bv =>
          simp only [Neo4jTriple.parse_triple] at hps
          cases hps
          exact ⟨rfl, rfl, Nat.le_succ _⟩
      | termVar vv =>
          simp only [Neo4jTriple.parse_triple] at hps
          cases hps
          exact ⟨rfl, rfl, Nat.le_succ _⟩
  | blankNode pv =>
      cases hps
      exact ⟨rfl, rfl, Nat.le_succ _⟩
  | literal pv dt =>
      cases hps
      exact ⟨rfl, rfl, Nat.le_succ _⟩
  | termVar pv =>
      cases hps
      exact ⟨rfl, rfl, Nat.le_succ _⟩

theorem parseStepFn_shape (m : List (String × String)) (t : Neo4jTriple) (q : Quad) :
    (parseStepFn m t q).uri = t.uri ∧
    (parseStepFn m t q).handle_vocab_uri_strategy = t.handle_vocab_uri_strategy ∧
    relRowsCount (parseStepFn m t q) ≤ relRowsCount t + 1 := by
  unfold parseStepFn
  cases hps : t.parse_triple q m with
  | ok t2 => exact parse_triple_shape t q m t2 hps
  | error e => exact ⟨rfl, rfl, Nat.le_succ _⟩

theorem accumulate_fold_shape (m : List (String × String)) :
    ∀ (qs : List Quad) (t : Neo4jTriple),
      (qs.foldl (parseStepFn m) t).uri = t.uri ∧
      (qs.foldl (parseStepFn m) t).handle_vocab_uri_strategy
        = t.handle_vocab_uri_strategy ∧
      relRowsCount (qs.foldl (parseStepFn m) t) ≤ relRowsCount t + qs.length := by
  intro qs
  induction qs with
  | nil => exact fun t => ⟨rfl, rfl, Nat.le_refl _⟩
  | cons q rest ih =>
      intro t
      obtain ⟨hu, hs, hr⟩ := parseStepFn_shape m t q
      obtain ⟨hu2, hs2, hr2⟩ := ih (parseStepFn m t q)
      refine ⟨by rw [List.foldl_cons, hu2, hu], by rw [List.foldl_cons, hs2, hs], ?_⟩
      rw [List.foldl_cons]
      calc relRowsCount (rest.foldl (parseStepFn m) (parseStepFn m t q))
          ≤ relRowsCount (parseStepFn m t q) + rest.length := hr2
        _ ≤ (relRowsCount t + 1) + rest.length := by omega
        _ = relRowsCount t + (q :: rest).length := by simp [List.length_cons]; omega

theorem add_create (db : DbOracle) (s : Neo4jStore) (u : String) (q : Quad)
    (hopen : s.openFlag = true) (hbatch : s.batching = true)
    (hnode : s.node_buffer_size < s.buffer_max_size)
    (hrel : s.rel_buffer_size < s.buffer_max_size)
    (hcur : s.current_subject = none) (hsub : q.subject = .namedNode u)
    (hstrat : s.handle_vocab_uri_strategy ≠ .SHORTEN) :
    ∃ t2, (s.__create_current_subject u).parse_triple q s.mappings = .ok t2 ∧
      s.add db q = ({ s with current_subject := some t2,
                             total_triples := s.total_triples + 1 }, .ok ()) := by
  obtain ⟨o, se, b, bm, tt, nbs, rbsz, nb, rbuf, csub, mp, vstrat, mstrat, mnames,
    cpref, caf, uaf, dc, wn, wr⟩ := s
  simp only at hopen hbatch hnode hrel hcur hstrat
  subst hopen
  subst hbatch
  subst hcur
  obtain ⟨t2, hps, hpuri, hp1, hp2, hp3, hp4⟩ :=
    parse_triple_ok ((⟨true, se, true, bm, tt, nbs, rbsz, nb, rbuf, none, mp, vstrat,
      mstrat, mnames, cpref, caf, uaf, dc, wn, wr⟩ :
        Neo4jStore).__create_current_subject u) q mp hstrat
  refine ⟨t2, hps, ?_⟩
  have hn2 : ¬ (nbs ≥ bm) := by omega
  have hr2 : ¬ (rbsz ≥ bm) := by omega
  simp [Neo4jStore.add, Neo4jStore.is_open, hsub, Neo4jStore.__check_current_subject,
    hps, Neo4jStore.addCommitPhase, hn2, hr2]

theorem add_nocommit (db : DbOracle) (s : Neo4jStore) (t : Neo4jTriple) (q : Quad)
    (hopen : s.openFlag = true) (hbatch : s.batching = true)
    (hnode : s.node_buffer_size < s.buffer_max_size)
    (hrel : s.rel_buffer_size < s.buffer_max_size)
    (hcur : s.current_subject = some t)
    (hsub : q.subject = .namedNode t.uri)
    (hstrat : t.handle_vocab_uri_strategy ≠ .SHORTEN) :
    ∃ t2, t.parse_triple q s.mappings = .ok t2 ∧
      s.add db q = ({ s with current_subject := some t2,
                             total_triples := s.total_triples + 1 }, .ok ()) := by
  obtain ⟨o, se, b, bm, tt, nbs, rbsz, nb, rbuf, csub, mp, vstrat, mstrat, mnames,
    cpref, caf, uaf, dc, wn, wr⟩ := s
  simp only at hopen hbatch hnode hrel hcur
  subst hopen
  subst hbatch
  subst hcur
  obtain ⟨t2, hps, hpuri, hp1, hp2, hp3, hp4⟩ := parse_triple_ok t q mp hstrat
  refine ⟨t2, hps, ?_⟩
  have hn2 : ¬ (nbs ≥ bm) := by omega
  have hr2 : ¬ (rbsz ≥ bm) := by omega
  simp [Neo4jStore.add, Neo4jStore.is_open, hsub, Neo4jStore.__check_current_subject,
    hps, Neo4jStore.addCommitPhase, hn2, hr2]

theorem runAdds_nocommit (db : DbOracle) :
    ∀ (qs : List Quad) (s : Neo4jStore) (t : Neo4jTriple),
      s.openFlag = true → s.batching = true →
      s.node_buffer_size < s.buffer_max_size →
      s.rel_buffer_size < s.buffer_max_size →
      s.current_subject = some t →
      t.handle_vocab_uri_strategy ≠ .SHORTEN →
      (∀ q ∈ qs, q.subject = .namedNode t.uri) →
      runAdds db s qs
        = ({ s with current_subject := some (qs.foldl (parseStepFn s.mappings) t)
                    total_triples := s.total_triples + qs.length }, .ok ()) := by
  intro qs
  induction qs with
  | nil =>
      intro s t hopen hbatch hnode hrel hcur hstrat hsubs
      simp only [runAdds, List.foldl_nil, List.length_nil, Nat.add_zero, ← hcur]
  | cons q rest ih =>
      intro s t hopen hbatch hnode hrel hcur hstrat hsubs
      obtain ⟨t2, hps, hadd⟩ := add_nocommit db s t q hopen hbatch hnode hrel hcur
        (hsubs q (List.mem_cons_self _ _)) hstrat
      obtain ⟨hu, hs2, _⟩ := parse_triple_shape t q s.mappings t2 hps
      have hstep : parseStepFn s.mappings t q = t2 := by
        simp [parseStepFn, hps]
      have hih := ih { s with current_subject := some t2
                              total_triples := s.total_triples + 1 } t2
        hopen hbatch hnode hrel rfl (by rw [hs2]; exact hstrat)
        (fun q2 hq2 => by rw [hu]; exact hsubs q2 (List.mem_cons_of_mem _ hq2))
      have hih2 : runAdds db
          { s with current_subject := some t2
                   total_triples := s.total_triples + 1 } rest
          = ({ s with current_subject := some (rest.foldl (parseStepFn s.mappings) t2)
                      total_triples := (s.total_triples + 1) + rest.length },
             .ok ()) := hih
      simp only [runAdds, hadd]
      rw [hih2, List.foldl_cons, hstep, List.length_cons]
      have harith : s.total_triples + 1 + rest.length
          = s.total_triples + (rest.length + 1) := by omega
      rw [harith]

theorem runAdds_append (db : DbOracle) :
    ∀ (xs ys : List Quad) (s s1 : Neo4jStore),
      runAdds db s xs = (s1, .ok ()) →
      runAdds db s (xs ++ ys) = runAdds db s1 ys := by
  intro xs
  induction xs with
  | nil =>
      intro ys s s1 h
      simp only [runAdds] at h
      rw [List.nil_append, (Prod.mk.injEq _ _ _ _).mp h |>.1]
  | cons q rest ih =>
      intro ys s s1 h
      simp only [runAdds, List.cons_append] at h ⊢
      cases hadd : s.add db q with
      | mk s2 r =>
          rw [hadd] at h
          cases r with
          | ok v => exact ih ys s2 s1 h
          | error e => simp at h

theorem storeRels_foldl_size (uri : String) :
    ∀ (rs : List (String × List String)) (st : Neo4jStore),
      ∃ rb, rs.foldl (storeRelsStep uri) st
        = { st with rel_buffer := rb
                    rel_buffer_size :=
                      st.rel_buffer_size + (rs.map (fun kv => kv.2.length)).sum } := by
  intro rs
  induction rs with
  | nil =>
      intro st
      refine ⟨st.rel_buffer, ?_⟩
      rw [List.foldl_nil, List.map_nil, List.sum_nil, Nat.add_zero]
  | cons kv rest ih =>
      intro st
      obtain ⟨rb, hrb⟩ := ih (storeRelsStep uri st kv)
      refine ⟨rb, ?_⟩
      rw [List.foldl_cons, hrb]
      have harith : (storeRelsStep uri st kv).rel_buffer_size
            + (rest.map (fun kv => kv.2.length)).sum
          = st.rel_buffer_size + ((kv :: rest).map (fun kv => kv.2.length)).sum := by
        show st.rel_buffer_size + kv.2.length + (rest.map (fun kv => kv.2.length)).sum
            = st.rel_buffer_size + ((kv :: rest).map (fun kv => kv.2.length)).sum
        simp only [List.map_cons, List.sum_cons]
        omega
      rw [harith]
      rfl

theorem store_rels_size (s : Neo4jStore) (cs : Neo4jTriple)
    (h : s.current_subject = some cs) :
    ∃ rb, s.__store_current_subject_rels
      = { s with rel_buffer := rb
                 rel_buffer_size := s.rel_buffer_size + relRowsCount cs } := by
  obtain ⟨o, se, b, bm, tt, nbs, rbsz, nb, rbuf, csub, mp, vstrat, mstrat, mnames,
    cpref, caf, uaf, dc, wn, wr⟩ := s
  simp only at h
  subst h
  obtain ⟨rb, hrb⟩ := storeRels_foldl_size cs.uri cs.extract_rels
    ⟨o, se, b, bm, tt, nbs, rbsz, nb, rbuf, some cs, mp, vstrat, mstrat, mnames,
     cpref, caf, uaf, dc, wn, wr⟩
  exact ⟨rb, hrb⟩

theorem node_guard_true (c : NodeQueryComposer) (h : c.query_params ≠ []) :
    (!c.is_redundant && decide (c.query_params.length > 0)) = true := by
  cases hq : c.query_params with
  | nil => exact absurd hq h
  | cons a l => simp [NodeQueryComposer.is_redundant, hq]

theorem flushNodesAux_dbOk_one (k : String) (c : NodeQueryComposer) (s : Neo4jStore)
    (h : c.query_params ≠ []) :
    flushNodesAux dbOk [(k, c)] s
      = ({ s with db_calls := s.db_calls + 1
                  written_nodes := s.written_nodes ++ c.query_params
                  node_buffer := mapSet s.node_buffer k c.empty_query_params
                  node_buffer_size := 0 }, .ok ()) := by
  simp only [flushNodesAux, node_guard_true c h, if_true]
  rfl

theorem flushNodesAux_dbOk_two (k1 k2 : String) (c1 c2 : NodeQueryComposer)
    (s : Neo4jStore) (h1 : c1.query_params ≠ []) (h2 : c2.query_params ≠ []) :
    flushNodesAux dbOk [(k1, c1), (k2, c2)] s
      = ({ s with db_calls := s.db_calls + 2
                  written_nodes := s.written_nodes ++ c1.query_params ++ c2.query_params
                  node_buffer := mapSet (mapSet s.node_buffer k1 c1.empty_query_params)
                    k2 c2.empty_query_params
                  node_buffer_size := 0 }, .ok ()) := by
  simp only [flushNodesAux, node_guard_true c1 h1, node_guard_true c2 h2, if_true]
  rfl

theorem flushRelsAux_dbOk :
    ∀ (entries : List (String × RelationshipQueryComposer)) (s : Neo4jStore),
      ∃ s', flushRelsAux dbOk entries s = (s', .ok ()) ∧
        s'.written_nodes = s.written_nodes ∧ s'.openFlag = s.openFlag ∧
        s'.session = s.session ∧ s'.node_buffer = s.node_buffer ∧
        s'.node_buffer_size = s.node_buffer_size ∧
        s'.total_triples = s.total_triples ∧
        s'.current_subject = s.current_subject := by
  intro entries
  induction entries with
  | nil =>
      intro s
      exact ⟨{ s with rel_buffer_size := 0 }, rfl, rfl, rfl, rfl, rfl, rfl, rfl, rfl⟩
  | cons kv rest ih =>
      intro s
      obtain ⟨k, c⟩ := kv
      by_cases hg : (!c.is_redundant) = true
      · obtain ⟨s', h1, h2, h3, h4, h5, h6, h7, h8⟩ :=
          ih { s with db_calls := s.db_calls + 1
                      written_rels := s.written_rels ++ c.query_params
                      rel_buffer := mapSet s.rel_buffer k c.empty_query_params }
        refine ⟨s', ?_, h2, h3, h4, h5, h6, h7, h8⟩
        simp only [flushRelsAux, hg, if_true]
        exact h1
      · have hgf : (!c.is_redundant) = false := by
          cases hx : (!c.is_redundant)
          · rfl
          · exact absurd hx hg
        obtain ⟨s', h1, h2, h3, h4, h5, h6, h7, h8⟩ := ih s
        refine ⟨s', ?_, h2, h3, h4, h5, h6, h7, h8⟩
        simp only [flushRelsAux, hgf]
        exact h1

theorem commit_tf_some (db : DbOracle) (s : Neo4jStore) (cs : Neo4jTriple)
    (h : s.current_subject = some cs) :
    Neo4jStore.commit db s true false
      = Neo4jStore.__flushBuffer db
          { s.__store_current_subject with current_subject := none } true false := by
  obtain ⟨o, se, b, bm, tt, nbs, rbsz, nb, rbuf, csub, mp, vstrat, mstrat, mnames,
    cpref, caf, uaf, dc, wn, wr⟩ := s
  simp only at h
  subst h
  rfl

theorem commit_ft_none (db : DbOracle) (s : Neo4jStore)
    (h : s.current_subject = none) :
    Neo4jStore.commit db s false true = s.__flushBuffer db false true := by
  obtain ⟨o, se, b, bm, tt, nbs, rbsz, nb, rbuf, csub, mp, vstrat, mstrat, mnames,
    cpref, caf, uaf, dc, wn, wr⟩ := s
  simp only at h
  subst h
  rfl

theorem flushBuffer_tf (db : DbOracle) (st s' : Neo4jStore)
    (ho : st.openFlag = true) (hs : st.session = true)
    (hnodes : flushNodesAux db st.node_buffer st = (s', .ok ())) :
    st.__flushBuffer db true false = (s', .ok ()) := by
  obtain ⟨o, se, b, bm, tt, nbs, rbsz, nb, rbuf, csub, mp, vstrat, mstrat, mnames,
    cpref, caf, uaf, dc, wn, wr⟩ := st
  simp only at ho hs hnodes
  subst ho
  subst hs
  simp [Neo4jStore.__flushBuffer, Neo4jStore.is_open, Neo4jStore.__flushNodeBuffer,
    hnodes]

theorem flushBuffer_ft (db : DbOracle) (st s' : Neo4jStore)
    (ho : st.openFlag = true) (hs : st.session = true)
    (hrels : flushRelsAux db st.rel_buffer st = (s', .ok ())) :
    st.__flushBuffer db false true = (s', .ok ()) := by
  obtain ⟨o, se, b, bm, tt, nbs, rbsz, nb, rbuf, csub, mp, vstrat, mstrat, mnames,
    cpref, caf, uaf, dc, wn, wr⟩ := st
  simp only at ho hs hrels
  subst ho
  subst hs
  simp [Neo4jStore.__flushBuffer, Neo4jStore.is_open, Neo4jStore.__flushRelBuffer,
    hrels]

theorem close_true_ok (db : DbOracle) (s sM sE : Neo4jStore)
    (h1 : Neo4jStore.commit db s true false = (sM, .ok ()))
    (h2 : Neo4jStore.commit db sM false true = (sE, .ok ())) :
    Neo4jStore.close db s true = (sE.closeFinish, .ok ()) := by
  simp [Neo4jStore.close, h1, h2]

/-- Splitting `__store_current_subject_props` on a cache hit: the existing
composer for the label key is extended with the new row. -/
theorem store_props_lookup_some (s : Neo4jStore) (cs : Neo4jTriple)
    (c : NodeQueryComposer) (h : s.current_subject = some cs)
    (hl : List.lookup cs.extract_label_key s.node_buffer = some c) :
    s.__store_current_subject_props
      = { s with node_buffer := (mapSet s.node_buffer cs.extract_label_key
            (((c.add_props (cs.extract_props_names false) false).add_props
                (cs.extract_props_names true) true).add_query_param
              cs.extract_params))
                 node_buffer_size := s.node_buffer_size + 1 } := by
  obtain ⟨o, se, b, bm, tt, nbs, rbsz, nb, rbuf, csub, mp, vstrat, mstrat, mnames,
    cpref, caf, uaf, dc, wn, wr⟩ := s
  simp only at h hl
  subst h
  simp only [Neo4jStore.__store_current_subject_props, hl]

/-- Splitting `__store_current_subject_props` on a cache miss: a fresh
composer is created for the label key. -/
theorem store_props_lookup_none (s : Neo4jStore) (cs : Neo4jTriple)
    (h : s.current_subject = some cs)
    (hl : List.lookup cs.extract_label_key s.node_buffer = none) :
    s.__store_current_subject_props
      = { s with node_buffer := (mapSet s.node_buffer cs.extract_label_key
            ((((NodeQueryComposer.init cs.extract_labels
                  s.handle_multival_strategy
                  s.multival_props_predicates).add_props
                (cs.extract_props_names false) false).add_props
                (cs.extract_props_names true) true).add_query_param
              cs.extract_params))
                 node_buffer_size := s.node_buffer_size + 1 } := by
  obtain ⟨o, se, b, bm, tt, nbs, rbsz, nb, rbuf, csub, mp, vstrat, mstrat, mnames,
    cpref, caf, uaf, dc, wn, wr⟩ := s
  simp only at h hl
  subst h
  simp only [Neo4jStore.__store_current_subject_props, hl]

/-- C1: at most one subject accumulator is open at a time (the store's
single `current_subject` slot); when `add` sees a named subject different
from the open accumulator's URI, the previous accumulator's labels,
properties and relationships are pushed into the composer buffers first and
a fresh accumulator opens for the new subject.  Feeding the triples of
subject A, then of subject B, then closing, writes exactly two node rows:
the row extracted from A's triples alone followed by the row extracted from
B's triples alone — no property of A leaks into B's row. -/
theorem subject_boundary_flush (s : Neo4jStore) (qsA qsB : List Quad) (A B : String)
    (hopen : s.openFlag = true) (hsession : s.session = true)
    (hbatch : s.batching = true)
    (hnb : s.node_buffer = []) (hrb : s.rel_buffer = [])
    (hnbs : s.node_buffer_size = 0) (hrbs : s.rel_buffer_size = 0)
    (hcur : s.current_subject = none)
    (hAB : A ≠ B) (hstrat : s.handle_vocab_uri_strategy ≠ .SHORTEN)
    (hA : ∀ q ∈ qsA, q.subject = .namedNode A)
    (hB : ∀ q ∈ qsB, q.subject = .namedNode B)
    (hnA : qsA ≠ []) (hnB : qsB ≠ [])
    (hth : qsA.length + 1 < s.buffer_max_size) :
    ∃ sMid sEnd : Neo4jStore,
      runAdds dbOk s (qsA ++ qsB) = (sMid, .ok ()) ∧
      sMid.close dbOk true = (sEnd, .ok ()) ∧
      sEnd.written_nodes = s.written_nodes ++
        [(s.accumulateSubject A qsA).extract_params,
         (s.accumulateSubject B qsB).extract_params] := by
  obtain ⟨o, se, b, bm, tt, nbs, rbsz, nb, rbuf, csub, mp, vstrat, mstrat, mnames,
    cpref, caf, uaf, dc, wn, wr⟩ := s
  simp only at hopen hsession hbatch hnb hrb hnbs hrbs hcur hstrat hth
  subst hopen
  subst hsession
  subst hbatch
  subst hnb
  subst hrb
  subst hnbs
  subst hrbs
  subst hcur
  cases qsA with
  | nil => exact absurd rfl hnA
  | cons qA restA =>
  cases qsB with
  | nil => exact absurd rfl hnB
  | cons qB restB =>
  simp only [List.length_cons] at hth
  -- step 1: the first A-quad opens the accumulator
  obtain ⟨t1, hps1, hadd1⟩ := add_create dbOk
    ⟨true, true, true, bm, tt, 0, 0, [], [], none, mp, vstrat, mstrat, mnames,
     cpref, caf, uaf, dc, wn, wr⟩ A qA rfl rfl
    (by show (0 : Nat) < bm; omega) (by show (0 : Nat) < bm; omega) rfl
    (hA qA (List.mem_cons_self _ _)) hstrat
  obtain ⟨hu1, hs1, hr1⟩ := parse_triple_shape _ qA mp t1 hps1
  have huA : t1.uri = A := hu1
  have hstrat1 : t1.handle_vocab_uri_strategy ≠ .SHORTEN := by
    rw [hs1]
    exact hstrat
  -- step 2: the rest of the A-quads accumulate without commits
  have hrun1 := runAdds_nocommit dbOk restA
    ⟨true, true, true, bm, tt + 1, 0, 0, [], [], some t1, mp, vstrat, mstrat, mnames,
     cpref, caf, uaf, dc, wn, wr⟩ t1 rfl rfl
    (by show (0 : Nat) < bm; omega) (by show (0 : Nat) < bm; omega) rfl hstrat1
    (fun q hq => by rw [huA]; exact hA q (List.mem_cons_of_mem _ hq))
  -- the accumulator after all A-quads is the reference accumulation
  have hfoldA : restA.foldl (parseStepFn mp) t1
      = (⟨true, true, true, bm, tt, 0, 0, [], [], none, mp, vstrat, mstrat, mnames,
          cpref, caf, uaf, dc, wn, wr⟩ :
            Neo4jStore).accumulateSubject A (qA :: restA) := by
    simp only [Neo4jStore.accumulateSubject, List.foldl_cons]
    rw [show parseStepFn mp
        ((⟨true, true, true, bm, tt, 0, 0, [], [], none, mp, vstrat, mstrat, mnames,
          cpref, caf, uaf, dc, wn, wr⟩ :
            Neo4jStore).__create_current_subject A) qA = t1 from by
      simp [parseStepFn, hps1]]
  rw [hfoldA] at hrun1
  have hrun1x : runAdds dbOk
      ⟨true, true, true, bm, tt + 1, 0, 0, [], [], some t1, mp, vstrat, mstrat,
       mnames, cpref, caf, uaf, dc, wn, wr⟩ restA
      = (⟨true, true, true, bm, tt + 1 + restA.length, 0, 0, [], [],
          some ((⟨true, true, true, bm, tt, 0, 0, [], [], none, mp, vstrat, mstrat,
            mnames, cpref, caf, uaf, dc, wn, wr⟩ :
              Neo4jStore).accumulateSubject A (qA :: restA)), mp, vstrat, mstrat,
          mnames, cpref, caf, uaf, dc, wn, wr⟩, .ok ()) := hrun1
  -- facts about the accumulated A-subject
  obtain ⟨huAa, hsAa, hrAa⟩ := accumulate_fold_shape mp (qA :: restA)
    ((⟨true, true, true, bm, tt, 0, 0, [], [], none, mp, vstrat, mstrat, mnames,
       cpref, caf, uaf, dc, wn, wr⟩ : Neo4jStore).__create_current_subject A)
  have huriA : ((⟨true, true, true, bm, tt, 0, 0, [], [], none, mp, vstrat, mstrat, mnames,
       cpref, caf, uaf, dc, wn, wr⟩ : Neo4jStore).accumulateSubject A (qA :: restA)).uri = A := huAa
  have hstratA : ((⟨true, true, true, bm, tt, 0, 0, [], [], none, mp, vstrat, mstrat, mnames,
       cpref, caf, uaf, dc, wn, wr⟩ : Neo4jStore).accumulateSubject A (qA :: restA)).handle_vocab_uri_strategy ≠ .SHORTEN := by
    rw [show ((⟨true, true, true, bm, tt, 0, 0, [], [], none, mp, vstrat, mstrat, mnames,
       cpref, caf, uaf, dc, wn, wr⟩ : Neo4jStore).accumulateSubject A (qA :: restA)).handle_vocab_uri_strategy
        = ((⟨true, true, true, bm, tt, 0, 0, [], [], none, mp, vstrat, mstrat, mnames,
       cpref, caf, uaf, dc, wn, wr⟩ : Neo4jStore).__create_current_subject A).handle_vocab_uri_strategy
      from hsAa]
    exact hstrat
  have hrelA : relRowsCount ((⟨true, true, true, bm, tt, 0, 0, [], [], none, mp, vstrat, mstrat, mnames,
       cpref, caf, uaf, dc, wn, wr⟩ : Neo4jStore).accumulateSubject A (qA :: restA)) ≤ restA.length + 1 := by
    have h0 : relRowsCount ((⟨true, true, true, bm, tt, 0, 0, [], [], none, mp, vstrat, mstrat, mnames,
       cpref, caf, uaf, dc, wn, wr⟩ : Neo4jStore).__create_current_subject A) = 0 := rfl
    have := hrAa
    rw [h0] at this
    simpa using this
  generalize hgA : ((⟨true, true, true, bm, tt, 0, 0, [], [], none, mp, vstrat, mstrat, mnames,
       cpref, caf, uaf, dc, wn, wr⟩ : Neo4jStore).accumulateSubject A (qA :: restA)) = accA at hrun1x huriA hstratA hrelA ⊢
  -- boundary: the first B-quad pushes A into the composers
  have compAdef : True := trivial
  set compA : NodeQueryComposer := (((NodeQueryComposer.init accA.extract_labels mstrat mnames).add_props
      (accA.extract_props_names false) false).add_props
      (accA.extract_props_names true) true).add_query_param accA.extract_params with hcompA
  have hpropsA : (⟨true, true, true, bm, tt + 1 + restA.length, 0, 0, [], [], some accA, mp, vstrat, mstrat, mnames,
       cpref, caf, uaf, dc, wn, wr⟩ : Neo4jStore).__store_current_subject_props
      = (⟨true, true, true, bm, tt + 1 + restA.length, 1, 0, [(accA.extract_label_key, compA)], [], some accA, mp, vstrat, mstrat, mnames,
       cpref, caf, uaf, dc, wn, wr⟩ : Neo4jStore) := rfl
  obtain ⟨rbA, hrelsA⟩ := store_rels_size (⟨true, true, true, bm, tt + 1 + restA.length, 1, 0, [(accA.extract_label_key, compA)], [], some accA, mp, vstrat, mstrat, mnames,
       cpref, caf, uaf, dc, wn, wr⟩ : Neo4jStore) accA rfl
  have hstoreA : (⟨true, true, true, bm, tt + 1 + restA.length, 0, 0, [], [], some accA, mp, vstrat, mstrat, mnames,
       cpref, caf, uaf, dc, wn, wr⟩ : Neo4jStore).__store_current_subject
      = (⟨true, true, true, bm, tt + 1 + restA.length, 1, 0 + relRowsCount accA, [(accA.extract_label_key, compA)], rbA, some accA, mp, vstrat, mstrat, mnames,
       cpref, caf, uaf, dc, wn, wr⟩ : Neo4jStore) := by
    show ((⟨true, true, true, bm, tt + 1 + restA.length, 0, 0, [], [], some accA, mp, vstrat, mstrat, mnames,
       cpref, caf, uaf, dc, wn, wr⟩ : Neo4jStore).__store_current_subject_props).__store_current_subject_rels
        = (⟨true, true, true, bm, tt + 1 + restA.length, 1, 0 + relRowsCount accA, [(accA.extract_label_key, compA)], rbA, some accA, mp, vstrat, mstrat, mnames,
       cpref, caf, uaf, dc, wn, wr⟩ : Neo4jStore)
    rw [hpropsA]
    exact hrelsA
  have hneB : accA.uri ≠ B := by
    rw [huriA]
    exact hAB
  have hcheckB : (⟨true, true, true, bm, tt + 1 + restA.length, 0, 0, [], [], some accA, mp, vstrat, mstrat, mnames,
       cpref, caf, uaf, dc, wn, wr⟩ : Neo4jStore).__check_current_subject B
      = (⟨true, true, true, bm, tt + 1 + restA.length, 1, 0 + relRowsCount accA, [(accA.extract_label_key, compA)], rbA, some ((⟨true, true, true, bm, tt + 1 + restA.length, 1, 0 + relRowsCount accA, [(accA.extract_label_key, compA)], rbA, some accA, mp, vstrat, mstrat, mnames,
       cpref, caf, uaf, dc, wn, wr⟩ : Neo4jStore).__create_current_subject B), mp, vstrat, mstrat, mnames,
       cpref, caf, uaf, dc, wn, wr⟩ : Neo4jStore) := by
    simp only [Neo4jStore.__check_current_subject]
    rw [if_pos hneB, hstoreA]
  obtain ⟨tB1, hpsB, hpB1u, hpB1s, hpB2, hpB3, hpB4⟩ :=
    parse_triple_ok ((⟨true, true, true, bm, tt + 1 + restA.length, 1, 0 + relRowsCount accA, [(accA.extract_label_key, compA)], rbA, some accA, mp, vstrat, mstrat, mnames,
       cpref, caf, uaf, dc, wn, wr⟩ : Neo4jStore).__create_current_subject B) qB mp hstrat
  simp only [Nat.zero_add] at hpsB
  have haddB2 : Neo4jStore.add dbOk (⟨true, true, true, bm, tt + 1 + restA.length, 0, 0, [], [], some accA, mp, vstrat, mstrat, mnames,
       cpref, caf, uaf, dc, wn, wr⟩ : Neo4jStore) qB
      = ((⟨true, true, true, bm, tt + 1 + restA.length + 1, 1, 0 + relRowsCount accA, [(accA.extract_label_key, compA)], rbA, some tB1, mp, vstrat, mstrat, mnames,
       cpref, caf, uaf, dc, wn, wr⟩ : Neo4jStore), .ok ()) := by
    have hn : ¬ (bm ≤ 1) := by omega
    have hr : ¬ (bm ≤ relRowsCount accA) := by omega
    simp [Neo4jStore.add, Neo4jStore.is_open, hB qB (List.mem_cons_self _ _), hcheckB,
      hpsB, Neo4jStore.addCommitPhase, hn, hr]
  -- the rest of the B-quads accumulate without commits
  have huB : tB1.uri = B := hpB1u
  have hstratB1 : tB1.handle_vocab_uri_strategy ≠ .SHORTEN := by
    rw [hpB1s]
    exact hstrat
  have hrun2 := runAdds_nocommit dbOk restB (⟨true, true, true, bm, tt + 1 + restA.length + 1, 1, 0 + relRowsCount accA, [(accA.extract_label_key, compA)], rbA, some tB1, mp, vstrat, mstrat, mnames,
       cpref, caf, uaf, dc, wn, wr⟩ : Neo4jStore) tB1 rfl rfl
    (by show (1 : Nat) < bm; omega)
    (by show 0 + relRowsCount accA < bm; omega) rfl hstratB1
    (fun q hq => by rw [huB]; exact hB q (List.mem_cons_of_mem _ hq))
  have hstepB : parseStepFn mp ((⟨true, true, true, bm, tt, 0, 0, [], [], none, mp, vstrat, mstrat, mnames,
       cpref, caf, uaf, dc, wn, wr⟩ : Neo4jStore).__create_current_subject B) qB
      = tB1 := by
    simp only [parseStepFn]
    rw [show ((⟨true, true, true, bm, tt, 0, 0, [], [], none, mp, vstrat, mstrat, mnames,
       cpref, caf, uaf, dc, wn, wr⟩ : Neo4jStore).__create_current_subject B).parse_triple qB mp
        = .ok tB1 from hpsB]
  have hfoldB : restB.foldl (parseStepFn mp) tB1 = ((⟨true, true, true, bm, tt, 0, 0, [], [], none, mp, vstrat, mstrat, mnames,
       cpref, caf, uaf, dc, wn, wr⟩ : Neo4jStore).accumulateSubject B (qB :: restB)) := by
    simp only [Neo4jStore.accumulateSubject, List.foldl_cons, hstepB]
  rw [hfoldB] at hrun2
  have hrun2x : runAdds dbOk (⟨true, true, true, bm, tt + 1 + restA.length + 1, 1, 0 + relRowsCount accA, [(accA.extract_label_key, compA)], rbA, some tB1, mp, vstrat, mstrat, mnames,
       cpref, caf, uaf, dc, wn, wr⟩ : Neo4jStore) restB
      = ((⟨true, true, true, bm, tt + 1 + restA.length + 1 + restB.length, 1, 0 + relRowsCount accA, [(accA.extract_label_key, compA)], rbA, some ((⟨true, true, true, bm, tt, 0, 0, [], [], none, mp, vstrat, mstrat, mnames,
       cpref, caf, uaf, dc, wn, wr⟩ : Neo4jStore).accumulateSubject B (qB :: restB)), mp, vstrat, mstrat, mnames,
       cpref, caf, uaf, dc, wn, wr⟩ : Neo4jStore), .ok ()) := hrun2
  generalize hgB : ((⟨true, true, true, bm, tt, 0, 0, [], [], none, mp, vstrat, mstrat, mnames,
       cpref, caf, uaf, dc, wn, wr⟩ : Neo4jStore).accumulateSubject B (qB :: restB)) = accB at hrun2x ⊢
  -- assemble the full run of adds
  have h1A : runAdds dbOk (⟨true, true, true, bm, tt, 0, 0, [], [], none, mp, vstrat, mstrat, mnames,
       cpref, caf, uaf, dc, wn, wr⟩ : Neo4jStore) (qA :: restA)
      = ((⟨true, true, true, bm, tt + 1 + restA.length, 0, 0, [], [], some accA, mp, vstrat, mstrat, mnames,
       cpref, caf, uaf, dc, wn, wr⟩ : Neo4jStore), .ok ()) := by
    simp only [runAdds, hadd1]
    exact hrun1x
  have hrunAll : runAdds dbOk (⟨true, true, true, bm, tt, 0, 0, [], [], none, mp, vstrat, mstrat, mnames,
       cpref, caf, uaf, dc, wn, wr⟩ : Neo4jStore) ((qA :: restA) ++ (qB :: restB))
      = ((⟨true, true, true, bm, tt + 1 + restA.length + 1 + restB.length, 1, 0 + relRowsCount accA,
       [(accA.extract_label_key, compA)],
       rbA, some accB, mp, vstrat, mstrat, mnames,
       cpref, caf, uaf, dc, wn, wr⟩ : Neo4jStore), .ok ()) := by
    rw [runAdds_append dbOk (qA :: restA) (qB :: restB) _ _ h1A]
    simp only [runAdds, haddB2]
    exact hrun2x
  -- close: the second commit pass flushes both accumulated rows
  by_cases hK : accB.extract_label_key = accA.extract_label_key
  · -- same label key: the rows share one node composer
    have hlook1 : List.lookup accB.extract_label_key
        [(accA.extract_label_key, compA)] = some compA := by
      rw [hK]
      simp [List.lookup]
    set compB1 : NodeQueryComposer := ((compA.add_props (accB.extract_props_names false) false).add_props
      (accB.extract_props_names true) true).add_query_param accB.extract_params with hcompB1
    have hstPx : (⟨true, true, true, bm, tt + 1 + restA.length + 1 + restB.length, 1, 0 + relRowsCount accA,
       [(accA.extract_label_key, compA)],
       rbA, some accB, mp, vstrat, mstrat, mnames,
       cpref, caf, uaf, dc, wn, wr⟩ : Neo4jStore).__store_current_subject_props
        = (⟨true, true, true, bm, tt + 1 + restA.length + 1 + restB.length, 2, 0 + relRowsCount accA,
       mapSet [(accA.extract_label_key, compA)] accB.extract_label_key compB1,
       rbA, some accB, mp, vstrat, mstrat, mnames,
       cpref, caf, uaf, dc, wn, wr⟩ : Neo4jStore) :=
      store_props_lookup_some (⟨true, true, true, bm, tt + 1 + restA.length + 1 + restB.length, 1, 0 + relRowsCount accA,
       [(accA.extract_label_key, compA)],
       rbA, some accB, mp, vstrat, mstrat, mnames,
       cpref, caf, uaf, dc, wn, wr⟩ : Neo4jStore) accB compA rfl hlook1
    obtain ⟨rbB, hrelsB⟩ := store_rels_size (⟨true, true, true, bm, tt + 1 + restA.length + 1 + restB.length, 2, 0 + relRowsCount accA,
       mapSet [(accA.extract_label_key, compA)] accB.extract_label_key compB1,
       rbA, some accB, mp, vstrat, mstrat, mnames,
       cpref, caf, uaf, dc, wn, wr⟩ : Neo4jStore) accB rfl
    have hstoreB : (⟨true, true, true, bm, tt + 1 + restA.length + 1 + restB.length, 1, 0 + relRowsCount accA,
       [(accA.extract_label_key, compA)],
       rbA, some accB, mp, vstrat, mstrat, mnames,
       cpref, caf, uaf, dc, wn, wr⟩ : Neo4jStore).__store_current_subject
        = (⟨true, true, true, bm, tt + 1 + restA.length + 1 + restB.length, 2, 0 + relRowsCount accA + relRowsCount accB,
       mapSet [(accA.extract_label_key, compA)] accB.extract_label_key compB1,
       rbB, some accB, mp, vstrat, mstrat, mnames,
       cpref, caf, uaf, dc, wn, wr⟩ : Neo4jStore) := by
      show ((⟨true, true, true, bm, tt + 1 + restA.length + 1 + restB.length, 1, 0 + relRowsCount accA,
       [(accA.extract_label_key, compA)],
       rbA, some accB, mp, vstrat, mstrat, mnames,
       cpref, caf, uaf, dc, wn, wr⟩ : Neo4jStore).__store_current_subject_props).__store_current_subject_rels
          = (⟨true, true, true, bm, tt + 1 + restA.length + 1 + restB.length, 2, 0 + relRowsCount accA + relRowsCount accB,
       mapSet [(accA.extract_label_key, compA)] accB.extract_label_key compB1,
       rbB, some accB, mp, vstrat, mstrat, mnames,
       cpref, caf, uaf, dc, wn, wr⟩ : Neo4jStore)
      rw [hstPx]
      exact hrelsB
    have hc1x : Neo4jStore.commit dbOk (⟨true, true, true, bm, tt + 1 + restA.length + 1 + restB.length, 1, 0 + relRowsCount accA,
       [(accA.extract_label_key, compA)],
       rbA, some accB, mp, vstrat, mstrat, mnames,
       cpref, caf, uaf, dc, wn, wr⟩ : Neo4jStore) true false
        = Neo4jStore.__flushBuffer dbOk (⟨true, true, true, bm, tt + 1 + restA.length + 1 + restB.length, 2, 0 + relRowsCount accA + relRowsCount accB,
       mapSet [(accA.extract_label_key, compA)] accB.extract_label_key compB1,
       rbB, none, mp, vstrat, mstrat, mnames,
       cpref, caf, uaf, dc, wn, wr⟩ : Neo4jStore) true false := by
      rw [commit_tf_some dbOk (⟨true, true, true, bm, tt + 1 + restA.length + 1 + restB.length, 1, 0 + relRowsCount accA,
       [(accA.extract_label_key, compA)],
       rbA, some accB, mp, vstrat, mstrat, mnames,
       cpref, caf, uaf, dc, wn, wr⟩ : Neo4jStore) accB rfl, hstoreB]
    have hmap1 : mapSet [(accA.extract_label_key, compA)] accB.extract_label_key compB1 = [(accA.extract_label_key, compB1)] := by
      rw [hK]
      simp [mapSet]
    rw [hmap1] at hc1x
    have hcommit1 : Neo4jStore.commit dbOk (⟨true, true, true, bm, tt + 1 + restA.length + 1 + restB.length, 1, 0 + relRowsCount accA,
       [(accA.extract_label_key, compA)],
       rbA, some accB, mp, vstrat, mstrat, mnames,
       cpref, caf, uaf, dc, wn, wr⟩ : Neo4jStore) true false
        = ((⟨true, true, true, bm, tt + 1 + restA.length + 1 + restB.length, 0, 0 + relRowsCount accA + relRowsCount accB,
       mapSet [(accA.extract_label_key, compB1)] accA.extract_label_key compB1.empty_query_params,
       rbB, none, mp, vstrat, mstrat, mnames,
       cpref, caf, uaf, dc + 1, wn ++ [accA.extract_params, accB.extract_params], wr⟩ : Neo4jStore), .ok ()) := by
      rw [hc1x]
      exact flushBuffer_tf dbOk (⟨true, true, true, bm, tt + 1 + restA.length + 1 + restB.length, 2, 0 + relRowsCount accA + relRowsCount accB,
       [(accA.extract_label_key, compB1)],
       rbB, none, mp, vstrat, mstrat, mnames,
       cpref, caf, uaf, dc, wn, wr⟩ : Neo4jStore) (⟨true, true, true, bm, tt + 1 + restA.length + 1 + restB.length, 0, 0 + relRowsCount accA + relRowsCount accB,
       mapSet [(accA.extract_label_key, compB1)] accA.extract_label_key compB1.empty_query_params,
       rbB, none, mp, vstrat, mstrat, mnames,
       cpref, caf, uaf, dc + 1, wn ++ [accA.extract_params, accB.extract_params], wr⟩ : Neo4jStore) rfl rfl
        (flushNodesAux_dbOk_one accA.extract_label_key compB1
          (⟨true, true, true, bm, tt + 1 + restA.length + 1 + restB.length, 2, 0 + relRowsCount accA + relRowsCount accB,
       [(accA.extract_label_key, compB1)],
       rbB, none, mp, vstrat, mstrat, mnames,
       cpref, caf, uaf, dc, wn, wr⟩ : Neo4jStore)
          (by rw [hcompB1]; exact add_query_param_ne_nil _ _))
    obtain ⟨s6, hfr, hw6, ho6, hs6, hnbuf6, hnbs6, htt6, hcur6⟩ :=
      flushRelsAux_dbOk rbB (⟨true, true, true, bm, tt + 1 + restA.length + 1 + restB.length, 0, 0 + relRowsCount accA + relRowsCount accB,
       mapSet [(accA.extract_label_key, compB1)] accA.extract_label_key compB1.empty_query_params,
       rbB, none, mp, vstrat, mstrat, mnames,
       cpref, caf, uaf, dc + 1, wn ++ [accA.extract_params, accB.extract_params], wr⟩ : Neo4jStore)
    have hcommit2 : Neo4jStore.commit dbOk (⟨true, true, true, bm, tt + 1 + restA.length + 1 + restB.length, 0, 0 + relRowsCount accA + relRowsCount accB,
       mapSet [(accA.extract_label_key, compB1)] accA.extract_label_key compB1.empty_query_params,
       rbB, none, mp, vstrat, mstrat, mnames,
       cpref, caf, uaf, dc + 1, wn ++ [accA.extract_params, accB.extract_params], wr⟩ : Neo4jStore) false true
        = (s6, .ok ()) := by
      rw [commit_ft_none dbOk (⟨true, true, true, bm, tt + 1 + restA.length + 1 + restB.length, 0, 0 + relRowsCount accA + relRowsCount accB,
       mapSet [(accA.extract_label_key, compB1)] accA.extract_label_key compB1.empty_query_params,
       rbB, none, mp, vstrat, mstrat, mnames,
       cpref, caf, uaf, dc + 1, wn ++ [accA.extract_params, accB.extract_params], wr⟩ : Neo4jStore) rfl]
      exact flushBuffer_ft dbOk (⟨true, true, true, bm, tt + 1 + restA.length + 1 + restB.length, 0, 0 + relRowsCount accA + relRowsCount accB,
       mapSet [(accA.extract_label_key, compB1)] accA.extract_label_key compB1.empty_query_params,
       rbB, none, mp, vstrat, mstrat, mnames,
       cpref, caf, uaf, dc + 1, wn ++ [accA.extract_params, accB.extract_params], wr⟩ : Neo4jStore) s6 rfl rfl hfr
    refine ⟨(⟨true, true, true, bm, tt + 1 + restA.length + 1 + restB.length, 1, 0 + relRowsCount accA,
       [(accA.extract_label_key, compA)],
       rbA, some accB, mp, vstrat, mstrat, mnames,
       cpref, caf, uaf, dc, wn, wr⟩ : Neo4jStore), s6.closeFinish, hrunAll,
      close_true_ok dbOk (⟨true, true, true, bm, tt + 1 + restA.length + 1 + restB.length, 1, 0 + relRowsCount accA,
       [(accA.extract_label_key, compA)],
       rbA, some accB, mp, vstrat, mstrat, mnames,
       cpref, caf, uaf, dc, wn, wr⟩ : Neo4jStore) (⟨true, true, true, bm, tt + 1 + restA.length + 1 + restB.length, 0, 0 + relRowsCount accA + relRowsCount accB,
       mapSet [(accA.extract_label_key, compB1)] accA.extract_label_key compB1.empty_query_params,
       rbB, none, mp, vstrat, mstrat, mnames,
       cpref, caf, uaf, dc + 1, wn ++ [accA.extract_params, accB.extract_params], wr⟩ : Neo4jStore) s6 hcommit1 hcommit2, ?_⟩
    show s6.written_nodes = wn ++ [accA.extract_params, accB.extract_params]
    rw [hw6]
  · -- distinct label keys: a second composer is flushed right after the first
    have hlook2 : List.lookup accB.extract_label_key
        [(accA.extract_label_key, compA)] = none := by
      simp [List.lookup, beq_eq_false_iff_ne.mpr hK]
    set compB2 : NodeQueryComposer := (((NodeQueryComposer.init accB.extract_labels mstrat mnames).add_props
      (accB.extract_props_names false) false).add_props
      (accB.extract_props_names true) true).add_query_param accB.extract_params with hcompB2
    have hstPx : (⟨true, true, true, bm, tt + 1 + restA.length + 1 + restB.length, 1, 0 + relRowsCount accA,
       [(accA.extract_label_key, compA)],
       rbA, some accB, mp, vstrat, mstrat, mnames,
       cpref, caf, uaf, dc, wn, wr⟩ : Neo4jStore).__store_current_subject_props
        = (⟨true, true, true, bm, tt + 1 + restA.length + 1 + restB.length, 2, 0 + relRowsCount accA,
       mapSet [(accA.extract_label_key, compA)] accB.extract_label_key compB2,
       rbA, some accB, mp, vstrat, mstrat, mnames,
       cpref, caf, uaf, dc, wn, wr⟩ : Neo4jStore) :=
      store_props_lookup_none (⟨true, true, true, bm, tt + 1 + restA.length + 1 + restB.length, 1, 0 + relRowsCount accA,
       [(accA.extract_label_key, compA)],
       rbA, some accB, mp, vstrat, mstrat, mnames,
       cpref, caf, uaf, dc, wn, wr⟩ : Neo4jStore) accB rfl hlook2
    obtain ⟨rbB, hrelsB⟩ := store_rels_size (⟨true, true, true, bm, tt + 1 + restA.length + 1 + restB.length, 2, 0 + relRowsCount accA,
       mapSet [(accA.extract_label_key, compA)] accB.extract_label_key compB2,
       rbA, some accB, mp, vstrat, mstrat, mnames,
       cpref, caf, uaf, dc, wn, wr⟩ : Neo4jStore) accB rfl
    have hstoreB : (⟨true, true, true, bm, tt + 1 + restA.length + 1 + restB.length, 1, 0 + relRowsCount accA,
       [(accA.extract_label_key, compA)],
       rbA, some accB, mp, vstrat, mstrat, mnames,
       cpref, caf, uaf, dc, wn, wr⟩ : Neo4jStore).__store_current_subject
        = (⟨true, true, true, bm, tt + 1 + restA.length + 1 + restB.length, 2, 0 + relRowsCount accA + relRowsCount accB,
       mapSet [(accA.extract_label_key, compA)] accB.extract_label_key compB2,
       rbB, some accB, mp, vstrat, mstrat, mnames,
       cpref, caf, uaf, dc, wn, wr⟩ : Neo4jStore) := by
      show ((⟨true, true, true, bm, tt + 1 + restA.length + 1 + restB.length, 1, 0 + relRowsCount accA,
       [(accA.extract_label_key, compA)],
       rbA, some accB, mp, vstrat, mstrat, mnames,
       cpref, caf, uaf, dc, wn, wr⟩ : Neo4jStore).__store_current_subject_props).__store_current_subject_rels
          = (⟨true, true, true, bm, tt + 1 + restA.length + 1 + restB.length, 2, 0 + relRowsCount accA + relRowsCount accB,
       mapSet [(accA.extract_label_key, compA)] accB.extract_label_key compB2,
       rbB, some accB, mp, vstrat, mstrat, mnames,
       cpref, caf, uaf, dc, wn, wr⟩ : Neo4jStore)
      rw [hstPx]
      exact hrelsB
    have hc1x : Neo4jStore.commit dbOk (⟨true, true, true, bm, tt + 1 + restA.length + 1 + restB.length, 1, 0 + relRowsCount accA,
       [(accA.extract_label_key, compA)],
       rbA, some accB, mp, vstrat, mstrat, mnames,
       cpref, caf, uaf, dc, wn, wr⟩ : Neo4jStore) true false
        = Neo4jStore.__flushBuffer dbOk (⟨true, true, true, bm, tt + 1 + restA.length + 1 + restB.length, 2, 0 + relRowsCount accA + relRowsCount accB,
       mapSet [(accA.extract_label_key, compA)] accB.extract_label_key compB2,
       rbB, none, mp, vstrat, mstrat, mnames,
       cpref, caf, uaf, dc, wn, wr⟩ : Neo4jStore) true false := by
      rw [commit_tf_some dbOk (⟨true, true, true, bm, tt + 1 + restA.length + 1 + restB.length, 1, 0 + relRowsCount accA,
       [(accA.extract_label_key, compA)],
       rbA, some accB, mp, vstrat, mstrat, mnames,
       cpref, caf, uaf, dc, wn, wr⟩ : Neo4jStore) accB rfl, hstoreB]
    have hne2 : ¬ (accA.extract_label_key = accB.extract_label_key) :=
      fun h => hK h.symm
    have hmap2 : mapSet [(accA.extract_label_key, compA)] accB.extract_label_key compB2
        = [(accA.extract_label_key, compA), (accB.extract_label_key, compB2)] := by
      simp [mapSet, hne2]
    rw [hmap2] at hc1x
    have hcommit1 : Neo4jStore.commit dbOk (⟨true, true, true, bm, tt + 1 + restA.length + 1 + restB.length, 1, 0 + relRowsCount accA,
       [(accA.extract_label_key, compA)],
       rbA, some accB, mp, vstrat, mstrat, mnames,
       cpref, caf, uaf, dc, wn, wr⟩ : Neo4jStore) true false
        = ((⟨true, true, true, bm, tt + 1 + restA.length + 1 + restB.length, 0, 0 + relRowsCount accA + relRowsCount accB,
       mapSet (mapSet [(accA.extract_label_key, compA), (accB.extract_label_key, compB2)] accA.extract_label_key compA.empty_query_params) accB.extract_label_key compB2.empty_query_params,
       rbB, none, mp, vstrat, mstrat, mnames,
       cpref, caf, uaf, dc + 2, wn ++ [accA.extract_params] ++ [accB.extract_params], wr⟩ : Neo4jStore), .ok ()) := by
      rw [hc1x]
      exact flushBuffer_tf dbOk (⟨true, true, true, bm, tt + 1 + restA.length + 1 + restB.length, 2, 0 + relRowsCount accA + relRowsCount accB,
       [(accA.extract_label_key, compA), (accB.extract_label_key, compB2)],
       rbB, none, mp, vstrat, mstrat, mnames,
       cpref, caf, uaf, dc, wn, wr⟩ : Neo4jStore) (⟨true, true, true, bm, tt + 1 + restA.length + 1 + restB.length, 0, 0 + relRowsCount accA + relRowsCount accB,
       mapSet (mapSet [(accA.extract_label_key, compA), (accB.extract_label_key, compB2)] accA.extract_label_key compA.empty_query_params) accB.extract_label_key compB2.empty_query_params,
       rbB, none, mp, vstrat, mstrat, mnames,
       cpref, caf, uaf, dc + 2, wn ++ [accA.extract_params] ++ [accB.extract_params], wr⟩ : Neo4jStore) rfl rfl
        (flushNodesAux_dbOk_two accA.extract_label_key accB.extract_label_key
          compA compB2 (⟨true, true, true, bm, tt + 1 + restA.length + 1 + restB.length, 2, 0 + relRowsCount accA + relRowsCount accB,
       [(accA.extract_label_key, compA), (accB.extract_label_key, compB2)],
       rbB, none, mp, vstrat, mstrat, mnames,
       cpref, caf, uaf, dc, wn, wr⟩ : Neo4jStore)
          (by rw [hcompA]; exact add_query_param_ne_nil _ _)
          (by rw [hcompB2]; exact add_query_param_ne_nil _ _))
    obtain ⟨s6, hfr, hw6, ho6, hs6, hnbuf6, hnbs6, htt6, hcur6⟩ :=
      flushRelsAux_dbOk rbB (⟨true, true, true, bm, tt + 1 + restA.length + 1 + restB.length, 0, 0 + relRowsCount accA + relRowsCount accB,
       mapSet (mapSet [(accA.extract_label_key, compA), (accB.extract_label_key, compB2)] accA.extract_label_key compA.empty_query_params) accB.extract_label_key compB2.empty_query_params,
       rbB, none, mp, vstrat, mstrat, mnames,
       cpref, caf, uaf, dc + 2, wn ++ [accA.extract_params] ++ [accB.extract_params], wr⟩ : Neo4jStore)
    have hcommit2 : Neo4jStore.commit dbOk (⟨true, true, true, bm, tt + 1 + restA.length + 1 + restB.length, 0, 0 + relRowsCount accA + relRowsCount accB,
       mapSet (mapSet [(accA.extract_label_key, compA), (accB.extract_label_key, compB2)] accA.extract_label_key compA.empty_query_params) accB.extract_label_key compB2.empty_query_params,
       rbB, none, mp, vstrat, mstrat, mnames,
       cpref, caf, uaf, dc + 2, wn ++ [accA.extract_params] ++ [accB.extract_params], wr⟩ : Neo4jStore) false true
        = (s6, .ok ()) := by
      rw [commit_ft_none dbOk (⟨true, true, true, bm, tt + 1 + restA.length + 1 + restB.length, 0, 0 + relRowsCount accA + relRowsCount accB,
       mapSet (mapSet [(accA.extract_label_key, compA), (accB.extract_label_key, compB2)] accA.extract_label_key compA.empty_query_params) accB.extract_label_key compB2.empty_query_params,
       rbB, none, mp, vstrat, mstrat, mnames,
       cpref, caf, uaf, dc + 2, wn ++ [accA.extract_params] ++ [accB.extract_params], wr⟩ : Neo4jStore) rfl]
      exact flushBuffer_ft dbOk (⟨true, true, true, bm, tt + 1 + restA.length + 1 + restB.length, 0, 0 + relRowsCount accA + relRowsCount accB,
       mapSet (mapSet [(accA.extract_label_key, compA), (accB.extract_label_key, compB2)] accA.extract_label_key compA.empty_query_params) accB.extract_label_key compB2.empty_query_params,
       rbB, none, mp, vstrat, mstrat, mnames,
       cpref, caf, uaf, dc + 2, wn ++ [accA.extract_params] ++ [accB.extract_params], wr⟩ : Neo4jStore) s6 rfl rfl hfr
    refine ⟨(⟨true, true, true, bm, tt + 1 + restA.length + 1 + restB.length, 1, 0 + relRowsCount accA,
       [(accA.extract_label_key, compA)],
       rbA, some accB, mp, vstrat, mstrat, mnames,
       cpref, caf, uaf, dc, wn, wr⟩ : Neo4jStore), s6.closeFinish, hrunAll,
      close_true_ok dbOk (⟨true, true, true, bm, tt + 1 + restA.length + 1 + restB.length, 1, 0 + relRowsCount accA,
       [(accA.extract_label_key, compA)],
       rbA, some accB, mp, vstrat, mstrat, mnames,
       cpref, caf, uaf, dc, wn, wr⟩ : Neo4jStore) (⟨true, true, true, bm, tt + 1 + restA.length + 1 + restB.length, 0, 0 + relRowsCount accA + relRowsCount accB,
       mapSet (mapSet [(accA.extract_label_key, compA), (accB.extract_label_key, compB2)] accA.extract_label_key compA.empty_query_params) accB.extract_label_key compB2.empty_query_params,
       rbB, none, mp, vstrat, mstrat, mnames,
       cpref, caf, uaf, dc + 2, wn ++ [accA.extract_params] ++ [accB.extract_params], wr⟩ : Neo4jStore) s6 hcommit1 hcommit2, ?_⟩
    show s6.written_nodes = wn ++ [accA.extract_params, accB.extract_params]
    rw [hw6]
    simp [List.append_assoc]

/-- Witness for the boundary flush: two one-quad subjects run through an open
store of capacity 10; both parameter rows end up in written order. -/
theorem subject_boundary_flush_witness :
    ∃ sMid sEnd : Neo4jStore,
      runAdds dbOk wBoundaryStore ([wQuadA] ++ [wQuadB]) = (sMid, .ok ()) ∧
      sMid.close dbOk true = (sEnd, .ok ()) ∧
      sEnd.written_nodes = wBoundaryStore.written_nodes ++
        [(wBoundaryStore.accumulateSubject "http://a/x" [wQuadA]).extract_params,
         (wBoundaryStore.accumulateSubject "http://b/y" [wQuadB]).extract_params] :=
  subject_boundary_flush wBoundaryStore [wQuadA] [wQuadB] "http://a/x" "http://b/y"
    rfl rfl rfl rfl rfl rfl rfl rfl (by decide)
    (fun h => VocabStrategy.noConfusion h)
    (by decide) (by decide)
    (List.cons_ne_nil _ _) (List.cons_ne_nil _ _) (by decide)

/-- With an always-failing driver, `add` of a named-subject quad on an open,
batched store whose node counter has reached the threshold (no accumulator
open, non-SHORTEN strategy) triggers the batched node flush, which fails on
its single driver call; the error propagates out of `add` after
`__close_on_error` drained the buffers, with nothing written and the node
counter already bumped for the stored row. -/
theorem add_batched_const_fail_spec (s : Neo4jStore) (quad : Quad) (u : String)
    (e : JsError) (hopen : s.openFlag = true) (hsession : s.session = true)
    (hbatch : s.batching = true)
    (hge : s.node_buffer_size ≥ s.buffer_max_size)
    (hsub : quad.subject = .namedNode u)
    (hstrat : s.handle_vocab_uri_strategy ≠ .SHORTEN)
    (hcur : s.current_subject = none) :
    ∃ sf : Neo4jStore,
      s.add (dbFail e) quad = (sf.__close_on_error, .error e) ∧
      sf.openFlag = true ∧ sf.session = true ∧
      sf.written_nodes = s.written_nodes ∧
      sf.written_rels = s.written_rels ∧
      sf.db_calls = s.db_calls + 1 ∧
      sf.node_buffer_size = s.node_buffer_size + 1 := by
  obtain ⟨o, se, b, bm, tt, nbs, rbsz, nb, rbuf, csub, mp, vstrat, mstrat, mnames,
    cpref, caf, uaf, dc, wn, wr⟩ := s
  simp only at hopen hsession hbatch hge hstrat hcur
  subst hopen
  subst hsession
  subst hbatch
  subst hcur
  have hcstrat : ((⟨true, true, true, bm, tt, nbs, rbsz, nb, rbuf, none, mp, vstrat,
      mstrat, mnames, cpref, caf, uaf, dc, wn, wr⟩ :
        Neo4jStore).__create_current_subject u).handle_vocab_uri_strategy
      ≠ .SHORTEN := hstrat
  obtain ⟨cs2, hps, hpuri, hp1, hp2, hp3, hp4⟩ :=
    parse_triple_ok _ quad mp hcstrat
  have hadd : Neo4jStore.add (dbFail e)
      ⟨true, true, true, bm, tt, nbs, rbsz, nb, rbuf, none, mp, vstrat, mstrat,
       mnames, cpref, caf, uaf, dc, wn, wr⟩ quad
      = Neo4jStore.addCommitPhase (dbFail e)
          ⟨true, true, true, bm, tt + 1, nbs, rbsz, nb, rbuf, some cs2, mp, vstrat,
           mstrat, mnames, cpref, caf, uaf, dc, wn, wr⟩ := by
    simp [Neo4jStore.add, Neo4jStore.is_open, hsub,
      Neo4jStore.__check_current_subject, hps]
  obtain ⟨comp, rb2, rbs2, hstore, hne⟩ :=
    store_subject_some
      ⟨true, true, true, bm, tt + 1, nbs, rbsz, nb, rbuf, some cs2, mp, vstrat,
       mstrat, mnames, cpref, caf, uaf, dc, wn, wr⟩ cs2 rfl
  have hSL : (⟨true, true, true, bm, tt + 1, nbs, rbsz, nb, rbuf, some cs2, mp,
      vstrat, mstrat, mnames, cpref, caf, uaf, dc, wn, wr⟩ :
        Neo4jStore).__store_current_subject
      = ⟨true, true, true, bm, tt + 1, nbs + 1, rbs2,
         mapSet nb cs2.extract_label_key comp, rb2, some cs2, mp, vstrat, mstrat,
         mnames, cpref, caf, uaf, dc, wn, wr⟩ := hstore
  have hcommit : Neo4jStore.commit (dbFail e)
        ⟨true, true, true, bm, tt + 1, nbs, rbsz, nb, rbuf, some cs2, mp, vstrat,
         mstrat, mnames, cpref, caf, uaf, dc, wn, wr⟩ true false
      = Neo4jStore.__flushBuffer (dbFail e)
          ⟨true, true, true, bm, tt + 1, nbs + 1, rbs2,
           mapSet nb cs2.extract_label_key comp, rb2, none, mp, vstrat, mstrat,
           mnames, cpref, caf, uaf, dc, wn, wr⟩ true false := by
    rw [commit_tf_some (dbFail e) _ cs2 rfl, hSL]
  have hmem : ∃ kv ∈ mapSet nb cs2.extract_label_key comp, kv.2.query_params ≠ [] :=
    ⟨(cs2.extract_label_key, comp), mem_mapSet_self _ _ _, hne⟩
  have hf := flushNodesAux_fail e (mapSet nb cs2.extract_label_key comp)
      ⟨true, true, true, bm, tt + 1, nbs + 1, rbs2,
       mapSet nb cs2.extract_label_key comp, rb2, none, mp, vstrat, mstrat,
       mnames, cpref, caf, uaf, dc, wn, wr⟩ hmem
  have hfb : Neo4jStore.__flushBuffer (dbFail e)
        ⟨true, true, true, bm, tt + 1, nbs + 1, rbs2,
         mapSet nb cs2.extract_label_key comp, rb2, none, mp, vstrat, mstrat,
         mnames, cpref, caf, uaf, dc, wn, wr⟩ true false
      = (⟨true, true, true, bm, tt + 1, nbs + 1, rbs2,
          mapSet nb cs2.extract_label_key comp, rb2, none, mp, vstrat, mstrat,
          mnames, cpref, caf, uaf, dc + 1, wn, wr⟩, .error e) :=
    flushBuffer_tf_nodes_fail (dbFail e) _ _ e rfl rfl hf
  refine ⟨⟨true, true, true, bm, tt + 1, nbs + 1, rbs2,
      mapSet nb cs2.extract_label_key comp, rb2, none, mp, vstrat, mstrat,
      mnames, cpref, caf, uaf, dc + 1, wn, wr⟩, ?_, rfl, rfl, rfl, rfl, rfl, rfl⟩
  rw [hadd]
  simp [Neo4jStore.addCommitPhase, hge, hcommit, hfb]

/-! ### C7: failed flush during add (batched threshold flush and unbatched
per-triple flush) -/

/-- C7: when the database write performed during `add` fails — the
threshold-triggered node flush of a batched store just as well as the
per-triple flush of an unbatched store — the exception reaches the caller
of `add`; every buffered query-parameter row has been emptied and the
failed rows were never written (so a naive retry has nothing to resubmit),
exactly one driver call was made (no internal retry), and the store still
reports itself open. -/
theorem add_flush_failure_propagation :
    (∀ (s : Neo4jStore) (quad : Quad) (u : String) (e : JsError),
      s.openFlag = true → s.session = true → s.batching = true →
      s.node_buffer_size ≥ s.buffer_max_size →
      quad.subject = .namedNode u →
      s.handle_vocab_uri_strategy ≠ .SHORTEN →
      s.current_subject = none →
      ∃ s2 : Neo4jStore,
        s.add (dbFail e) quad = (s2, .error e) ∧
        s2.is_open = true ∧
        (∀ kv ∈ s2.node_buffer, kv.2.query_params = []) ∧
        (∀ kv ∈ s2.rel_buffer, kv.2.query_params = []) ∧
        s2.written_nodes = s.written_nodes ∧
        s2.written_rels = s.written_rels ∧
        s2.db_calls = s.db_calls + 1) ∧
    (∀ (s : Neo4jStore) (quad : Quad) (u : String) (e : JsError),
      s.openFlag = true → s.session = true → s.batching = false →
      quad.subject = .namedNode u →
      s.handle_vocab_uri_strategy ≠ .SHORTEN →
      s.current_subject = none →
      ∃ s2 : Neo4jStore,
        s.add (dbFail e) quad = (s2, .error e) ∧
        s2.is_open = true ∧
        (∀ kv ∈ s2.node_buffer, kv.2.query_params = []) ∧
        (∀ kv ∈ s2.rel_buffer, kv.2.query_params = []) ∧
        s2.written_nodes = s.written_nodes ∧
        s2.written_rels = s.written_rels ∧
        s2.db_calls = s.db_calls + 1) := by
  constructor
  · intro s quad u e hopen hsession hbatch hge hsub hstrat hcur
    obtain ⟨sf, heq, ho, hs, hwn, hwr, hdb, hnb⟩ :=
      add_batched_const_fail_spec s quad u e hopen hsession hbatch hge hsub
        hstrat hcur
    refine ⟨sf.__close_on_error, heq, ?_, close_on_error_node_empty sf,
      close_on_error_rel_empty sf, ?_, ?_, ?_⟩
    · exact ho
    · exact hwn
    · exact hwr
    · exact hdb
  · intro s quad u e hopen hsession hbatch hsub hstrat hcur
    obtain ⟨sf, heq, ho, hs, hwn, hwr, hdb, hnb⟩ :=
      add_const_fail_spec s quad u e hopen hsession hbatch hsub hstrat hcur
    refine ⟨sf.__close_on_error, heq, ?_, close_on_error_node_empty sf,
      close_on_error_rel_empty sf, ?_, ?_, ?_⟩
    · exact ho
    · exact hwn
    · exact hwr
    · exact hdb

/-- Witness for `add_flush_failure_propagation`: the batched part on an open
store whose node counter sits at the threshold (capacity 2), the unbatched
part on a concrete open unbatched store, each fed one literal triple against
an always-failing driver. -/
theorem add_flush_failure_propagation_witness :
    (∃ s2 : Neo4jStore,
      (⟨true, true, true, 2, 0, 2, 0, [], [], none, [], .IGNORE, .OVERWRITE, [],
        [], "createdAt", "updatedAt", 0, [], []⟩ : Neo4jStore).add
          (dbFail (.dbFailure "boom"))
          ⟨.namedNode "http://a", .namedNode "http://p", .literal "1" none⟩
        = (s2, .error (.dbFailure "boom")) ∧
      s2.is_open = true ∧
      (∀ kv ∈ s2.node_buffer, kv.2.query_params = []) ∧
      (∀ kv ∈ s2.rel_buffer, kv.2.query_params = []) ∧
      s2.written_nodes = [] ∧
      s2.written_rels = [] ∧
      s2.db_calls = 1) ∧
    (∃ s2 : Neo4jStore,
      (Neo4jStore.initOpen false 1000 [] .IGNORE .OVERWRITE [] [] "_createdAt"
          "_updatedAt").add (dbFail (.dbFailure "boom"))
          ⟨.namedNode "http://a", .namedNode "http://p", .literal "1" none⟩
        = (s2, .error (.dbFailure "boom")) ∧
      s2.is_open = true ∧
      (∀ kv ∈ s2.node_buffer, kv.2.query_params = []) ∧
      (∀ kv ∈ s2.rel_buffer, kv.2.query_params = []) ∧
      s2.written_nodes = [] ∧
      s2.written_rels = [] ∧
      s2.db_calls = 1) := by
  constructor
  · have h := add_flush_failure_propagation.1
      (⟨true, true, true, 2, 0, 2, 0, [], [], none, [], .IGNORE, .OVERWRITE, [],
        [], "createdAt", "updatedAt", 0, [], []⟩ : Neo4jStore)
      ⟨.namedNode "http://a", .namedNode "http://p", .literal "1" none⟩
      "http://a" (.dbFailure "boom") rfl rfl rfl (by decide) rfl (by decide) rfl
    exact h
  · have h := add_flush_failure_propagation.2
      (Neo4jStore.initOpen false 1000 [] .IGNORE .OVERWRITE [] [] "_createdAt"
        "_updatedAt")
      ⟨.namedNode "http://a", .namedNode "http://p", .literal "1" none⟩
      "http://a" (.dbFailure "boom") rfl rfl rfl rfl (by decide) rfl
    exact h
